import Mathlib

/-!
# Batalha naval (`batalha_naval.c`)

A shallow embedding of the board functions of `batalha_naval.c` and the
properties of the shot resolver, the fleet placer, the opponent agent and
the board printer.

Conventions of the embedding:

* `char t[N][N]` is a total function `Fin 8 → Fin 8 → Char`, so every value of
  the type is a full 8x8 board;
* C `int` values are `Int`; where an `int` sum or difference can leave the range
  of `int` it is taken modulo `2^32` (`para_int`): the sums `c + len` and
  `r + len` of `cabe_livre`, whose `len` is an argument, and the conversions
  and subtractions of `parse_coord`, whose numbers come from the input text;
  a loop counter added to a coordinate below 8 stays far from the limits;
* an access `t[r][c]` with `int` indices goes through `ler` / `escrever`, which
  answer `none` when an index leaves `0..7` (the access the C program must
  never make);
* a function that mutates the board returns the new board;
* `rand()` is a list of natural numbers consumed from the front, one element
  for each call; a run that needs more draws than the list holds has not
  returned (`none`).
-/

namespace BatalhaNaval

/-! ## Constants -/

/-- Board size, `#define N 8`. -/
abbrev N : Nat := 8

/-- Unknown cell in the target view, `#define AGUA '~'`. -/
def AGUA : Char := '~'

/-- Empty cell of the real board, `#define VAZIO '.'`. -/
def VAZIO : Char := '.'

/-- Ship cell, `#define NAVIO '#'`. -/
def NAVIO : Char := '#'

/-- Shot in the water, `#define ERRO 'o'`. -/
def ERRO : Char := 'o'

/-- Shot that hit a ship, `#define ACERTO 'X'`. -/
def ACERTO : Char := 'X'

/-- The fleet `FROTA[] = { {4}, {3}, {3}, {2}, {2} }` (the `len` fields). -/
def FROTA : List Int := [4, 3, 3, 2, 2]

/-- Number of ships, `FROTA_TAM = sizeof(FROTA) / sizeof(FROTA[0])`. -/
def FROTA_TAM : Int := FROTA.length

/-! ## Boards -/

/-- A board `char t[N][N]`. -/
abbrev Tab : Type := Fin N → Fin N → Char

/-- An `int` index as an index of the array, when it is one. -/
def indice (i : Int) : Option (Fin N) :=
  if h : 0 ≤ i ∧ i < 8 then some ⟨i.toNat, by have := h.1; have := h.2; simp only [N]; omega⟩
  else none

/-- The read `t[r][c]`; `none` when the indices leave the array. -/
def ler (t : Tab) (r c : Int) : Option Char :=
  match indice r, indice c with
  | some i, some j => some (t i j)
  | _, _ => none

/-- The board `t` with cell `(i, j)` holding `v`. -/
def poe (t : Tab) (i j : Fin N) (v : Char) : Tab :=
  fun a b => if a = i ∧ b = j then v else t a b

/-- The write `t[r][c] = v`; `none` when the indices leave the array. -/
def escrever (t : Tab) (r c : Int) (v : Char) : Option Tab :=
  match indice r, indice c with
  | some i, some j => some (poe t i j v)
  | _, _ => none

/-- The function `init_tab`: every cell is set to `fill`. -/
def init_tab (_t : Tab) (fill : Char) : Tab :=
  fun _ _ => fill

/-- The function `dentro`: 1 when `(r, c)` is a cell of the board, else 0. -/
def dentro (r c : Int) : Int :=
  if r ≥ 0 ∧ r < N ∧ c ≥ 0 ∧ c < N then 1 else 0

/-- The conversion to `int` (32 bits): the value modulo
`2^32` in the range from `-2^31` to `2^31 - 1`. It is also the value an `int`
sum or difference takes when the exact result leaves that range. -/
def para_int (x : Int) : Int :=
  (x + 2147483648) % 4294967296 - 2147483648

/-! ## Shots -/

/-- The function `disparar`: the result code (-1 already fired, 0 water, 1 hit)
and the board afterwards. -/
def disparar (t : Tab) (r c : Int) : Option (Int × Tab) :=
  match ler t r c with
  | none => none
  | some ch =>
    if ch = ACERTO ∨ ch = ERRO then some (-1, t)
    else if ch = NAVIO then (escrever t r c ACERTO).map (fun t1 => (1, t1))
    else if ch = VAZIO then (escrever t r c ERRO).map (fun t1 => (0, t1))
    else if ch = AGUA then (escrever t r c ERRO).map (fun t1 => (0, t1))
    else some (0, t)

/-- The function `navios_restantes`: the count of cells holding a ship. -/
def navios_restantes (t : Tab) : Int :=
  (List.finRange N).foldl
    (fun rest r =>
      (List.finRange N).foldl (fun rest c => if t r c = NAVIO then rest + 1 else rest) rest)
    0

/-! ## Fleet placement -/

/-- The loop `for (j = ..; j < len; j++) if (t[r][c + j] != VAZIO) return 0;`
of `cabe_livre` with `n` iterations left, followed by the final `return 1`. -/
def cabe_livre_h (t : Tab) (r c : Int) : Nat → Int → Option Int
  | 0, _ => some 1
  | n + 1, j =>
    match ler t r (c + j) with
    | none => none
    | some ch => if ch ≠ VAZIO then some 0 else cabe_livre_h t r c n (j + 1)

/-- The loop `for (i = ..; i < len; i++) if (t[r + i][c] != VAZIO) return 0;`
of `cabe_livre` with `n` iterations left, followed by the final `return 1`. -/
def cabe_livre_v (t : Tab) (r c : Int) : Nat → Int → Option Int
  | 0, _ => some 1
  | n + 1, i =>
    match ler t (r + i) c with
    | none => none
    | some ch => if ch ≠ VAZIO then some 0 else cabe_livre_v t r c n (i + 1)

/-- The function `cabe_livre`: 1 when the ship fits on free cells, else 0. The
sums `c + len` and `r + len` are sums of `int`. -/
def cabe_livre (t : Tab) (r c len horizontal : Int) : Option Int :=
  if horizontal ≠ 0 then
    if para_int (c + len) > N then some 0 else cabe_livre_h t r c len.toNat 0
  else
    if para_int (r + len) > N then some 0 else cabe_livre_v t r c len.toNat 0

/-- The loop `for (j = ..; j < len; j++) t[r][c + j] = NAVIO;` with `n`
iterations left. -/
def coloca_navio_h (r c : Int) : Nat → Int → Tab → Option Tab
  | 0, _, t => some t
  | n + 1, j, t =>
    match escrever t r (c + j) NAVIO with
    | none => none
    | some t1 => coloca_navio_h r c n (j + 1) t1

/-- The loop `for (i = ..; i < len; i++) t[r + i][c] = NAVIO;` with `n`
iterations left. -/
def coloca_navio_v (r c : Int) : Nat → Int → Tab → Option Tab
  | 0, _, t => some t
  | n + 1, i, t =>
    match escrever t (r + i) c NAVIO with
    | none => none
    | some t1 => coloca_navio_v r c n (i + 1) t1

/-- The function `coloca_navio`. -/
def coloca_navio (t : Tab) (r c len horizontal : Int) : Option Tab :=
  if horizontal ≠ 0 then coloca_navio_h r c len.toNat 0 t
  else coloca_navio_v r c len.toNat 0 t

/-- The read `FROTA[k].len`. -/
def frota_len (k : Int) : Option Int :=
  if 0 ≤ k then FROTA[k.toNat]? else none

/-- The body of `coloca_frota_aleatoria` from the head of `while (1)`, for ship
`k` after `tentativas` rejected attempts. Each pass of the loop takes three
draws (`horizontal`, `r`, `c`, in this order). After a `break` the `for` header
runs (`k++`, then the test `k < FROTA_TAM`) and either enters the `while` of the
next ship with `tentativas = 0` or returns. The result is the board and the
draws not consumed. -/
def coloca_frota_enquanto : List Nat → Tab → Int → Int → Option (Tab × List Nat)
  | d1 :: d2 :: d3 :: resto, t, k, tentativas =>
    match frota_len k with
    | none => none
    | some len =>
      let horizontal : Int := (d1 : Int) % 2
      let r : Int := (d2 : Int) % N
      let c : Int := (d3 : Int) % N
      match cabe_livre t r c len horizontal with
      | none => none
      | some cabe =>
        if cabe ≠ 0 then
          match coloca_navio t r c len horizontal with
          | none => none
          | some t1 =>
            if k + 1 < FROTA_TAM then coloca_frota_enquanto resto t1 (k + 1) 0
            else some (t1, resto)
        else if tentativas + 1 > 5000 then
          if (-1 : Int) + 1 < FROTA_TAM then
            coloca_frota_enquanto resto (init_tab t VAZIO) (-1 + 1) 0
          else some (init_tab t VAZIO, resto)
        else coloca_frota_enquanto resto t k (tentativas + 1)
  | _, _, _, _ => none

/-- The function `coloca_frota_aleatoria`: the `for` loop entered with `k = 0`. -/
def coloca_frota_aleatoria (t : Tab) (sorteios : List Nat) : Option (Tab × List Nat) :=
  if (0 : Int) < FROTA_TAM then coloca_frota_enquanto sorteios t 0 0 else some (t, sorteios)

/-! ## Printing -/

/-- The conversion `%2d`: decimal digits, padded on the left to two columns. -/
def fmt_2d (n : Nat) : String :=
  let s := toString n
  if s.length < 2 then " " ++ s else s

/-- The character `ch` that `imprime_tabuleiro` passes to `printf(" %c ", ch)`
for a cell holding `ch0`. -/
def celula_impressa (ch0 : Char) (revelar_navios : Int) : Char :=
  if revelar_navios = 0 ∧ ch0 = NAVIO then AGUA else ch0

/-- The characters of the cells in the order `imprime_tabuleiro` prints them
(row by row). -/
def celulas_impressas (t : Tab) (revelar_navios : Int) : List Char :=
  (List.finRange N).flatMap fun r =>
    (List.finRange N).map fun c => celula_impressa (t r c) revelar_navios

/-- The function `imprime_tabuleiro`: the text written to the standard output. -/
def imprime_tabuleiro (t : Tab) (revelar_navios : Int) : String :=
  "   " ++ String.join ((List.finRange N).map fun c => fmt_2d (c.val + 1) ++ " ") ++ "\n"
    ++ String.join ((List.finRange N).map fun r =>
        " " ++ String.singleton (Char.ofNat (65 + r.val)) ++ " "
          ++ String.join ((List.finRange N).map fun c =>
              " " ++ String.singleton (celula_impressa (t r c) revelar_navios) ++ " ")
          ++ "\n")

/-! ## Opponent -/

/-- What a call of `cpu_joga` leaves behind: the board, the coordinate fired
at, the result of `disparar`, the line printed and the draws not consumed. -/
structure Jogada where
  /-- The board after the shot. -/
  tab : Tab
  /-- Row fired at. -/
  r : Int
  /-- Column fired at. -/
  c : Int
  /-- Result of the inner `disparar`. -/
  res : Int
  /-- Text printed. -/
  saida : String
  /-- Draws not consumed. -/
  resto : List Nat

/-- The function `cpu_joga`: each pass of `while (1)` takes two draws (`r`, `c`). -/
def cpu_joga : List Nat → Tab → Option Jogada
  | d1 :: d2 :: resto, t =>
    let r : Int := (d1 : Int) % N
    let c : Int := (d2 : Int) % N
    match ler t r c with
    | none => none
    | some ch =>
      if ch = ACERTO ∨ ch = ERRO then cpu_joga resto t
      else
        match disparar t r c with
        | none => none
        | some (res, t1) =>
          some ⟨t1, r, c, res,
            "CPU disparou em " ++ String.singleton (Char.ofNat (65 + r.toNat)) ++ toString (c + 1)
              ++ ": " ++ (if res = 1 then "ACERTOU!" else "água.") ++ "\n",
            resto⟩
  | _, _ => none

/-! ## Reading a coordinate -/

/-- The library test `isspace`, in the "C" locale: space, tab, newline,
vertical tab, form feed and carriage return (codes 32 and 9 to 13). -/
def isspace (ch : Char) : Bool :=
  ch.toNat = 32 || (9 ≤ ch.toNat && ch.toNat ≤ 13)

/-- The library test `isalpha`, in the "C" locale: the 52 letters of ASCII. -/
def isalpha (ch : Char) : Bool :=
  (65 ≤ ch.toNat && ch.toNat ≤ 90) || (97 ≤ ch.toNat && ch.toNat ≤ 122)

/-- The library test `isdigit`. -/
def isdigit (ch : Char) : Bool :=
  48 ≤ ch.toNat && ch.toNat ≤ 57

/-- The library function `toupper`, in the "C" locale; its result is an `int`. -/
def toupper (ch : Char) : Int :=
  if 97 ≤ ch.toNat ∧ ch.toNat ≤ 122 then (ch.toNat : Int) - 32 else (ch.toNat : Int)

/-- The character `*s` of a C string given by the characters before its final
NUL: the first character, NUL at the end of the text. -/
def topo (s : List Char) : Char :=
  s.headD (Char.ofNat 0)

/-- The value of the decimal digits at the front of a text, read after the
value `acc`, and the text that follows them. -/
def le_digitos : List Char → Nat → Nat × List Char
  | [], acc => (acc, [])
  | ch :: resto, acc =>
    if isdigit ch then le_digitos resto (acc * 10 + (ch.toNat - 48)) else (acc, ch :: resto)

/-- The integer that `strtol` in base 10 and the conversion `%d` read at the
front of a text: white space is skipped, a sign may come first, at least one
digit must follow. The result is the exact value and the text left. -/
def le_inteiro (s : List Char) : Option (Int × List Char) :=
  let s1 := s.dropWhile isspace
  let s2 := if topo s1 = '-' ∨ topo s1 = '+' then s1.tail else s1
  if isdigit (topo s2) then
    let p := le_digitos s2 0
    some (if topo s1 = '-' then -(p.1 : Int) else (p.1 : Int), p.2)
  else none

/-- A value brought into the range of `long` (64 bits, from `-2^63` to
`2^63 - 1`) the way `strtol` does it: an out-of-range value becomes `LONG_MAX`
or `LONG_MIN`. -/
def para_long (x : Int) : Int :=
  max (-9223372036854775808) (min 9223372036854775807 x)

/-- The library call `strtol(s, NULL, 10)`: 0 when no number can be read. -/
def strtol (s : List Char) : Int :=
  match le_inteiro s with
  | none => 0
  | some (v, _) => para_long v

/-- The library call `sscanf(s, "%d %d", &rr, &cc)`: the value returned (2 when
both numbers were read, else 1, 0 or -1) and the values of `rr` and `cc`
afterwards. A number outside the range of `int` is stored as the C library of
GNU stores it, through `long`. -/
def sscanf_d_d (s : List Char) (rr cc : Int) : Int × Int × Int :=
  match le_inteiro s with
  | none => (if (s.dropWhile isspace).isEmpty then -1 else 0, rr, cc)
  | some (a, s1) =>
    match le_inteiro s1 with
    | none => (1, para_int (para_long a), cc)
    | some (b, _) => (2, para_int (para_long a), para_int (para_long b))

/-- The function `parse_coord` on the text `s`: the value returned and the
values of `*out_r` and `*out_c` afterwards, `out_r` and `out_c` being their
values before the call. The subtractions are those of `int`. -/
def parse_coord (s : List Char) (out_r out_c : Int) : Int × Int × Int :=
  let s1 := s.dropWhile isspace
  if isalpha (topo s1) then
    let r : Int := toupper (topo s1) - 65
    let s2 := s1.tail.dropWhile isspace
    if ¬ isdigit (topo s2) then (0, out_r, out_c)
    else
      let col := strtol s2
      let c : Int := para_int (para_int col - 1)
      if dentro r c = 0 then (0, out_r, out_c) else (1, r, c)
  else
    let lidos := sscanf_d_d s1 0 0
    if lidos.1 ≠ 2 then (0, out_r, out_c)
    else
      let r : Int := para_int (lidos.2.1 - 1)
      let c : Int := para_int (lidos.2.2 - 1)
      if dentro r c = 0 then (0, out_r, out_c) else (1, r, c)

/-! ## Example boards -/

/-- A board with a ship cell at A1, a hit at A2, a miss at B1 and a stray
character at B2. -/
def tab_exemplo : Tab :=
  fun r c =>
    if r = 0 ∧ c = 0 then '#'
    else if r = 0 ∧ c = 1 then 'X'
    else if r = 1 ∧ c = 0 then 'o'
    else if r = 1 ∧ c = 1 then 'Z'
    else '.'

/-- Draws for one run of `coloca_frota_aleatoria`: a first attempt that does not
fit (horizontal at column 8), five attempts that do, and one draw left over. -/
def sorteios_exemplo : List Nat :=
  [1, 0, 7, 1, 0, 0, 0, 1, 0, 0, 1, 1, 0, 1, 2, 0, 1, 3, 9]

/-- The board `coloca_frota_aleatoria` builds from `sorteios_exemplo`. -/
def tab_frota : Tab :=
  fun r c => if (r ≤ 2 ∧ c < 4) ∨ (r = 3 ∧ c < 2) then '#' else '.'

/-- Draws for a second run of `coloca_frota_aleatoria`, all accepted. -/
def sorteios_exemplo_b : List Nat :=
  [1, 7, 0, 0, 0, 0, 0, 0, 1, 0, 0, 2, 0, 0, 3]

/-- The board `coloca_frota_aleatoria` builds from `sorteios_exemplo_b`. -/
def tab_frota_b : Tab :=
  fun r c => if (r ≤ 1 ∧ c < 4) ∨ (r = 2 ∧ c < 2) ∨ (r = 7 ∧ c < 4) then '#' else '.'

/-- The board `tab_frota` after a hit at A1 and a miss at H8. -/
def tab_jogo : Tab :=
  fun r c => if r = 0 ∧ c = 0 then 'X' else if r = 7 ∧ c = 7 then 'o' else tab_frota r c

/-- Draws for one call of `cpu_joga` on `tab_jogo`: A1 and H8 are rejected, B2
is fired at, one draw is left over. -/
def sorteios_cpu : List Nat := [0, 0, 15, 7, 1, 1, 5]

/-- What `cpu_joga` leaves on `tab_jogo` with the draws `sorteios_cpu`. -/
def jogada_exemplo : Jogada :=
  ⟨poe tab_jogo 1 1 ACERTO, 1, 1, 1, "CPU disparou em B2: ACERTOU!\n", [5]⟩

/-! ## Sequences of shots -/

/-- Successive calls of `disparar` at the coordinates of a list, each on the
board left by the previous one. -/
def disparar_seq (t : Tab) : List (Int × Int) → Option Tab
  | [] => some t
  | (r, c) :: resto =>
    match disparar t r c with
    | none => none
    | some (_, t1) => disparar_seq t1 resto

/-! ## Runs of cells -/

/-- The cells of the run of `len` cells that starts at `(r, c)`: rightwards when
`horizontal` is not zero, downwards otherwise. -/
def corrida (r c len horizontal : Int) : List (Int × Int) :=
  (List.range len.toNat).map fun (k : Nat) =>
    if horizontal ≠ 0 then (r, c + (k : Int)) else (r + (k : Int), c)

/-- The run of `len` cells from `(r, c)` lies inside the board and each of its
cells is empty. -/
def corrida_livre (t : Tab) (r c len horizontal : Int) : Prop :=
  ∀ p ∈ corrida r c len horizontal, dentro p.1 p.2 = 1 ∧ ler t p.1 p.2 = some VAZIO

instance (t : Tab) (r c len horizontal : Int) :
    Decidable (corrida_livre t r c len horizontal) :=
  inferInstanceAs
    (Decidable (∀ p ∈ corrida r c len horizontal, dentro p.1 p.2 = 1 ∧ ler t p.1 p.2 = some VAZIO))

/-- A ship put on the board: its anchor, its length and its orientation. -/
structure Colocacao where
  /-- Row of the anchor. -/
  r : Int
  /-- Column of the anchor. -/
  c : Int
  /-- Number of cells. -/
  len : Int
  /-- Not zero for a horizontal ship. -/
  horizontal : Int

/-- The cells a placed ship covers. -/
def Colocacao.celulas (x : Colocacao) : List (Int × Int) :=
  corrida x.r x.c x.len x.horizontal

/-- Every cell of the board is empty, a ship, a hit or a miss. -/
def Valido (t : Tab) : Prop :=
  ∀ i j : Fin N, t i j = VAZIO ∨ t i j = NAVIO ∨ t i j = ACERTO ∨ t i j = ERRO

instance (t : Tab) : Decidable (Valido t) :=
  inferInstanceAs
    (Decidable (∀ i j : Fin N, t i j = VAZIO ∨ t i j = NAVIO ∨ t i j = ACERTO ∨ t i j = ERRO))

/-- The number of cells of the board that hold `v`, counted as
`navios_restantes` counts the ship cells. -/
def conta (t : Tab) (v : Char) : Int :=
  (List.finRange N).foldl
    (fun n r => (List.finRange N).foldl (fun n c => if t r c = v then n + 1 else n) n)
    0

/-! ## Moves of a match -/

/-- A move on a board: a call `disparar(t, r, c)`, or a call `cpu_joga(t)` that
takes its draws from the given list. -/
inductive Acao where
  /-- The call `disparar(t, r, c)`. -/
  | tiro (r c : Int)
  /-- The call `cpu_joga(t)`, with its draws. -/
  | cpu (sorteios : List Nat)

/-- The moves of a list made one after the other, each on the board left by
the previous one. -/
def joga (t : Tab) : List Acao → Option Tab
  | [] => some t
  | Acao.tiro r c :: resto =>
    match disparar t r c with
    | none => none
    | some (_, t1) => joga t1 resto
  | Acao.cpu sorteios :: resto =>
    match cpu_joga sorteios t with
    | none => none
    | some j => joga j.tab resto

/-- Moves made on `tab_frota`: a shot at A1, a shot at H8, then the opponent
with the draws `sorteios_cpu`. -/
def acoes_exemplo : List Acao :=
  [Acao.tiro 0 0, Acao.tiro 7 7, Acao.cpu sorteios_cpu]

/-- The board the moves `acoes_exemplo` leave from `tab_frota`. -/
def tab_apos_acoes : Tab :=
  poe (poe (poe tab_frota 0 0 ACERTO) 7 7 ERRO) 1 1 ACERTO

/-! ## Passes of the placement loop -/

/-- One pass of `while (1)` in `coloca_frota_aleatoria`, for ship `k` after
`tentativas` rejected attempts, on the draws `d1 d2 d3`, followed through the
`for` header when the pass ends in `break`. The result is the board, and the
ship index and the counter at the next head of `while (1)`, or no index when
the `for` loop is over and the function returns. -/
def coloca_frota_passo (t : Tab) (k tentativas : Int) (d1 d2 d3 : Nat) :
    Option (Tab × Option (Int × Int)) :=
  match frota_len k with
  | none => none
  | some len =>
    let horizontal : Int := (d1 : Int) % 2
    let r : Int := (d2 : Int) % N
    let c : Int := (d3 : Int) % N
    match cabe_livre t r c len horizontal with
    | none => none
    | some cabe =>
      if cabe ≠ 0 then
        match coloca_navio t r c len horizontal with
        | none => none
        | some t1 =>
          if k + 1 < FROTA_TAM then some (t1, some (k + 1, 0))
          else some (t1, none)
      else if tentativas + 1 > 5000 then
        if (-1 : Int) + 1 < FROTA_TAM then some (init_tab t VAZIO, some (-1 + 1, 0))
        else some (init_tab t VAZIO, none)
      else some (t, some (k, tentativas + 1))

/-- The ship index `k` and the counter `tentativas` at each pass of `while (1)`
of a run of `coloca_frota_aleatoria`, in order: one entry for each sample
drawn, `tentativas` being the number of samples of ship `k` rejected so far. -/
def coloca_frota_amostras : List Nat → Tab → Int → Int → List (Int × Int)
  | d1 :: d2 :: d3 :: resto, t, k, tentativas =>
    (k, tentativas) ::
      match coloca_frota_passo t k tentativas d1 d2 d3 with
      | some (t1, some (k1, n1)) => coloca_frota_amostras resto t1 k1 n1
      | _ => []
  | _, _, _, _ => []

/-- Fifteen draws that place the five ships on an empty board. -/
def sorteios_bons : List Nat :=
  [1, 0, 0, 0, 1, 0, 0, 1, 1, 0, 1, 2, 0, 1, 3]

/-- The empty board after the first ship was written on A1..A4. -/
def tab_um_navio : Tab :=
  poe (poe (poe (poe (init_tab tab_exemplo VAZIO) 0 0 NAVIO) 0 1 NAVIO) 0 2 NAVIO) 0 3 NAVIO

/-! ## Counting -/

/-- One for a ship cell, zero for any other. -/
def peso (ch : Char) : Int := if ch = NAVIO then 1 else 0

/-! ## Lemmas on boards -/

theorem dentro_eq_one (r c : Int) :
    dentro r c = 1 ↔ (0 ≤ r ∧ r < 8) ∧ (0 ≤ c ∧ c < 8) := by
  unfold dentro
  split <;> rename_i h <;> simp only [N, Nat.cast_ofNat, ge_iff_le] at h
  · simp only [true_iff]; omega
  · simp only [zero_ne_one, false_iff]; omega

theorem indice_eq_some (i : Int) (a : Fin N) : indice i = some a ↔ (a.val : Int) = i := by
  unfold indice
  split
  · rename_i h
    simp only [Option.some.injEq]
    constructor
    · intro e; subst e; simp only [Int.toNat_of_nonneg h.1]
    · intro e; apply Fin.ext; show i.toNat = a.val; omega
  · rename_i h
    simp only [reduceCtorEq, false_iff]
    intro e
    have : a.val < 8 := a.isLt
    omega

theorem indice_of_dentro (i : Int) (h : 0 ≤ i ∧ i < 8) : ∃ a : Fin N, indice i = some a := by
  refine ⟨⟨i.toNat, by show i.toNat < 8; omega⟩, ?_⟩
  rw [indice_eq_some]
  simp only [Int.toNat_of_nonneg h.1]

theorem indice_inj (r1 r2 : Int) (a : Fin N) (h1 : indice r1 = some a) (h2 : indice r2 = some a) :
    r1 = r2 := by
  rw [indice_eq_some] at h1 h2
  omega

theorem ler_eq_some (t : Tab) (r c : Int) (ch : Char) :
    ler t r c = some ch ↔ ∃ i j, indice r = some i ∧ indice c = some j ∧ t i j = ch := by
  unfold ler
  cases hi : indice r <;> cases hj : indice c <;> simp

theorem ler_of_indice (t : Tab) (r c : Int) (i j : Fin N) (hi : indice r = some i)
    (hj : indice c = some j) : ler t r c = some (t i j) := by
  simp only [ler, hi, hj]

theorem escrever_of_indice (t : Tab) (r c : Int) (i j : Fin N) (v : Char)
    (hi : indice r = some i) (hj : indice c = some j) : escrever t r c v = some (poe t i j v) := by
  simp only [escrever, hi, hj]

theorem poe_mesma (t : Tab) (i j : Fin N) (v : Char) : poe t i j v i j = v := by
  simp [poe]

theorem poe_outra (t : Tab) (i j a b : Fin N) (v : Char) (h : ¬ (a = i ∧ b = j)) :
    poe t i j v a b = t a b := by
  simp [poe, h]

theorem ler_poe_mesma (t : Tab) (r c : Int) (i j : Fin N) (v : Char)
    (hi : indice r = some i) (hj : indice c = some j) : ler (poe t i j v) r c = some v := by
  rw [ler_of_indice _ r c i j hi hj, poe_mesma]

theorem ler_poe_outra (t : Tab) (r c r1 c1 : Int) (i j : Fin N) (v : Char)
    (hi : indice r = some i) (hj : indice c = some j) (h : (r1, c1) ≠ (r, c)) :
    ler (poe t i j v) r1 c1 = ler t r1 c1 := by
  unfold ler
  cases ha : indice r1 with
  | none => rfl
  | some a =>
    cases hb : indice c1 with
    | none => rfl
    | some b =>
      simp only
      rw [poe_outra]
      rintro ⟨rfl, rfl⟩
      exact h (by rw [indice_inj r1 r a ha hi, indice_inj c1 c b hb hj])

/-- The five branches of `disparar`, on array indices. -/
theorem disparar_of_indice (t : Tab) (r c : Int) (i j : Fin N) (hi : indice r = some i)
    (hj : indice c = some j) :
    disparar t r c =
      if t i j = ACERTO ∨ t i j = ERRO then some (-1, t)
      else if t i j = NAVIO then some (1, poe t i j ACERTO)
      else if t i j = VAZIO then some (0, poe t i j ERRO)
      else if t i j = AGUA then some (0, poe t i j ERRO)
      else some (0, t) := by
  simp only [disparar, ler_of_indice t r c i j hi hj, escrever_of_indice t r c i j _ hi hj,
    Option.map_some']

theorem indices_of_dentro (r c : Int) (hd : dentro r c = 1) :
    ∃ i j : Fin N, indice r = some i ∧ indice c = some j := by
  rw [dentro_eq_one] at hd
  obtain ⟨i, hi⟩ := indice_of_dentro r hd.1
  obtain ⟨j, hj⟩ := indice_of_dentro c hd.2
  exact ⟨i, j, hi, hj⟩

/-! ## Counting ship cells -/

theorem foldl_soma {α : Type} (g : α → Int) (l : List α) (z : Int) :
    l.foldl (fun acc x => acc + g x) z = z + (l.map g).sum := by
  induction l generalizing z with
  | nil => simp
  | cons x xs ih => simp only [List.foldl_cons, ih, List.map_cons, List.sum_cons]; ring

theorem navios_restantes_eq_sum (t : Tab) :
    navios_restantes t = ∑ r : Fin N, ∑ c : Fin N, peso (t r c) := by
  have h1 : ∀ (r : Fin N) (z : Int),
      (List.finRange N).foldl (fun rest c => if t r c = NAVIO then rest + 1 else rest) z
        = z + ∑ c : Fin N, peso (t r c) := by
    intro r z
    have : (fun (rest : Int) (c : Fin N) => if t r c = NAVIO then rest + 1 else rest)
        = fun rest c => rest + peso (t r c) := by
      funext rest c
      unfold peso
      split <;> simp
    rw [this, foldl_soma, Fin.sum_univ_def]
  unfold navios_restantes
  simp only [h1]
  rw [foldl_soma, Fin.sum_univ_def]
  simp

theorem navios_restantes_poe (t : Tab) (i j : Fin N) (v : Char) :
    navios_restantes (poe t i j v) = navios_restantes t - peso (t i j) + peso v := by
  have h : ∀ a b : Fin N, peso (poe t i j v a b)
      = peso (t a b) + (if a = i then (if b = j then peso v - peso (t i j) else 0) else 0) := by
    intro a b
    unfold poe
    by_cases ha : a = i
    · by_cases hb : b = j
      · subst ha; subst hb; simp
      · simp [ha, hb]
    · simp [ha]
  rw [navios_restantes_eq_sum, navios_restantes_eq_sum]
  simp only [h, Finset.sum_add_distrib, Finset.sum_ite_eq', Finset.sum_ite_eq, Finset.mem_univ,
    if_true, Finset.sum_const_zero]
  simp only [Finset.sum_ite_irrel, Finset.sum_const_zero, Finset.sum_ite_eq', Finset.sum_ite_eq,
    Finset.mem_univ, if_true]
  ring

/-! ## The shot resolver -/

theorem navio_ne_acerto : NAVIO ≠ ACERTO := by decide

theorem navio_ne_erro : NAVIO ≠ ERRO := by decide

theorem vazio_ne_navio : VAZIO ≠ NAVIO := by decide

theorem vazio_ne_acerto : VAZIO ≠ ACERTO := by decide

theorem vazio_ne_erro : VAZIO ≠ ERRO := by decide

/-- C1: for an in-bounds `(r, c)` whose cell holds a hit (`X`) or a miss (`o`),
`disparar` returns -1 and the board it leaves is the board it received, cell
`(r, c)` included. -/
theorem disparar_ja_atirado (t : Tab) (r c : Int) (hd : dentro r c = 1)
    (hc : ler t r c = some ACERTO ∨ ler t r c = some ERRO) :
    disparar t r c = some (-1, t) := by
  obtain ⟨i, j, hi, hj⟩ := indices_of_dentro r c hd
  rw [ler_of_indice t r c i j hi hj] at hc
  simp only [Option.some.injEq] at hc
  rw [disparar_of_indice t r c i j hi hj, if_pos hc]

theorem disparar_ja_atirado_witness :
    dentro 0 1 = 1 ∧ (ler tab_exemplo 0 1 = some ACERTO ∨ ler tab_exemplo 0 1 = some ERRO) ∧
      disparar tab_exemplo 0 1 = some (-1, tab_exemplo) :=
  ⟨by decide, by decide, disparar_ja_atirado tab_exemplo 0 1 (by decide) (by decide)⟩

/-- C2: for an in-bounds `(r, c)` whose cell holds a ship (`#`), `disparar`
returns 1, the cell `(r, c)` holds a hit (`X`) afterwards and every other cell
is unchanged. -/
theorem disparar_acerta_navio (t : Tab) (r c : Int) (hd : dentro r c = 1)
    (hc : ler t r c = some NAVIO) :
    ∃ t1, disparar t r c = some (1, t1) ∧ ler t1 r c = some ACERTO ∧
      ∀ r1 c1 : Int, (r1, c1) ≠ (r, c) → ler t1 r1 c1 = ler t r1 c1 := by
  obtain ⟨i, j, hi, hj⟩ := indices_of_dentro r c hd
  rw [ler_of_indice t r c i j hi hj] at hc
  simp only [Option.some.injEq] at hc
  refine ⟨poe t i j ACERTO, ?_, ler_poe_mesma t r c i j _ hi hj,
    fun r1 c1 h => ler_poe_outra t r c r1 c1 i j _ hi hj h⟩
  rw [disparar_of_indice t r c i j hi hj, hc]
  simp [navio_ne_acerto, navio_ne_erro]

theorem disparar_acerta_navio_witness :
    dentro 0 0 = 1 ∧ ler tab_exemplo 0 0 = some NAVIO ∧
      ∃ t1, disparar tab_exemplo 0 0 = some (1, t1) ∧ ler t1 0 0 = some ACERTO ∧
        ∀ r1 c1 : Int, (r1, c1) ≠ (0, 0) → ler t1 r1 c1 = ler tab_exemplo r1 c1 :=
  ⟨by decide, by decide, disparar_acerta_navio tab_exemplo 0 0 (by decide) (by decide)⟩

/-- C3 fails as stated: at B2 the example board holds `Z`, which is neither a
ship, a hit nor a miss; `disparar` returns 0 there and leaves the board as it
was, so the cell does not become a miss. -/
theorem disparar_outro_valor_contra :
    dentro 1 1 = 1 ∧ ler tab_exemplo 1 1 = some 'Z' ∧
      ('Z' ≠ NAVIO ∧ 'Z' ≠ ACERTO ∧ 'Z' ≠ ERRO) ∧
      disparar tab_exemplo 1 1 = some (0, tab_exemplo) ∧
      ler tab_exemplo 1 1 ≠ some ERRO := by
  decide

/-- C3, amended: for an in-bounds `(r, c)` whose cell value `ch` is neither a
ship, a hit nor a miss, `disparar` returns 0; when `ch` is the empty value `.`
or the display value `~` the cell `(r, c)` holds a miss (`o`) afterwards and
every other cell is unchanged; for any other `ch` the whole board is
unchanged. -/
theorem disparar_agua (t : Tab) (r c : Int) (ch : Char) (hd : dentro r c = 1)
    (hc : ler t r c = some ch) (h1 : ch ≠ NAVIO) (h2 : ch ≠ ACERTO) (h3 : ch ≠ ERRO) :
    ∃ t1, disparar t r c = some (0, t1) ∧
      ((ch = VAZIO ∨ ch = AGUA) →
        ler t1 r c = some ERRO ∧
          ∀ r1 c1 : Int, (r1, c1) ≠ (r, c) → ler t1 r1 c1 = ler t r1 c1) ∧
      (¬ (ch = VAZIO ∨ ch = AGUA) → t1 = t) := by
  obtain ⟨i, j, hi, hj⟩ := indices_of_dentro r c hd
  rw [ler_of_indice t r c i j hi hj] at hc
  simp only [Option.some.injEq] at hc
  rw [disparar_of_indice t r c i j hi hj, hc]
  by_cases hv : ch = VAZIO ∨ ch = AGUA
  · refine ⟨poe t i j ERRO, ?_, fun _ => ⟨ler_poe_mesma t r c i j _ hi hj,
      fun r1 c1 h => ler_poe_outra t r c r1 c1 i j _ hi hj h⟩, fun h => absurd hv h⟩
    rcases hv with hv | hv <;> subst hv <;> simp [h1, h2, h3]
  · refine ⟨t, ?_, fun h => absurd h hv, fun _ => rfl⟩
    simp only [not_or] at hv
    simp [hv.1, hv.2, h1, h2, h3]

theorem disparar_agua_witness :
    dentro 1 1 = 1 ∧ ler tab_exemplo 1 1 = some 'Z' ∧
      ∃ t1, disparar tab_exemplo 1 1 = some (0, t1) ∧
        (('Z' = VAZIO ∨ 'Z' = AGUA) →
          ler t1 1 1 = some ERRO ∧
            ∀ r1 c1 : Int, (r1, c1) ≠ (1, 1) → ler t1 r1 c1 = ler tab_exemplo r1 c1) ∧
        (¬ ('Z' = VAZIO ∨ 'Z' = AGUA) → t1 = tab_exemplo) :=
  ⟨by decide, by decide,
    disparar_agua tab_exemplo 1 1 'Z' (by decide) (by decide) (by decide) (by decide) (by decide)⟩

/-- What a returning call of `disparar` did, branch by branch. -/
theorem disparar_casos (t t1 : Tab) (r c res : Int) (h : disparar t r c = some (res, t1)) :
    ∃ i j : Fin N, indice r = some i ∧ indice c = some j ∧
      ((res = -1 ∧ t1 = t ∧ (t i j = ACERTO ∨ t i j = ERRO)) ∨
        (res = 1 ∧ t1 = poe t i j ACERTO ∧ t i j = NAVIO) ∨
        (res = 0 ∧ t1 = poe t i j ERRO ∧ (t i j = VAZIO ∨ t i j = AGUA)) ∨
        (res = 0 ∧ t1 = t ∧ t i j ≠ ACERTO ∧ t i j ≠ ERRO ∧ t i j ≠ NAVIO ∧ t i j ≠ VAZIO
          ∧ t i j ≠ AGUA)) := by
  cases hi : indice r with
  | none => simp [disparar, ler, hi] at h
  | some i =>
    cases hj : indice c with
    | none => simp [disparar, ler, hi, hj] at h
    | some j =>
      refine ⟨i, j, rfl, rfl, ?_⟩
      rw [disparar_of_indice t r c i j hi hj] at h
      by_cases k1 : t i j = ACERTO ∨ t i j = ERRO
      · rw [if_pos k1] at h
        simp only [Option.some.injEq, Prod.mk.injEq] at h
        exact Or.inl ⟨h.1.symm, h.2.symm, k1⟩
      · rw [if_neg k1] at h
        by_cases k2 : t i j = NAVIO
        · rw [if_pos k2] at h
          simp only [Option.some.injEq, Prod.mk.injEq] at h
          exact Or.inr (Or.inl ⟨h.1.symm, h.2.symm, k2⟩)
        · rw [if_neg k2] at h
          by_cases k3 : t i j = VAZIO
          · rw [if_pos k3] at h
            simp only [Option.some.injEq, Prod.mk.injEq] at h
            exact Or.inr (Or.inr (Or.inl ⟨h.1.symm, h.2.symm, Or.inl k3⟩))
          · rw [if_neg k3] at h
            by_cases k4 : t i j = AGUA
            · rw [if_pos k4] at h
              simp only [Option.some.injEq, Prod.mk.injEq] at h
              exact Or.inr (Or.inr (Or.inl ⟨h.1.symm, h.2.symm, Or.inr k4⟩))
            · rw [if_neg k4] at h
              simp only [Option.some.injEq, Prod.mk.injEq] at h
              simp only [not_or] at k1
              exact Or.inr (Or.inr (Or.inr ⟨h.1.symm, h.2.symm, k1.1, k1.2, k2, k3, k4⟩))

/-- A call of `disparar` at an in-bounds coordinate returns. -/
theorem disparar_retorna (t : Tab) (r c : Int) (hd : dentro r c = 1) :
    ∃ res t1, disparar t r c = some (res, t1) := by
  obtain ⟨i, j, hi, hj⟩ := indices_of_dentro r c hd
  rw [disparar_of_indice t r c i j hi hj]
  split_ifs <;> exact ⟨_, _, rfl⟩

/-- A cell holding a hit or a miss is left alone by every shot. -/
theorem disparar_fixa_terminal (t t1 : Tab) (r c res : Int) (i j : Fin N)
    (hc : t i j = ACERTO ∨ t i j = ERRO) (h : disparar t r c = some (res, t1)) :
    t1 i j = t i j := by
  obtain ⟨a, b, -, -, k | k | k | k⟩ := disparar_casos t t1 r c res h
  · rw [k.2.1]
  · rw [k.2.1]
    apply poe_outra
    rintro ⟨rfl, rfl⟩
    rw [k.2.2] at hc
    exact absurd hc (by decide)
  · rw [k.2.1]
    apply poe_outra
    rintro ⟨rfl, rfl⟩
    rcases k.2.2 with e | e <;> rw [e] at hc <;> exact absurd hc (by decide)
  · rw [k.2.1]

theorem disparar_seq_fixa_terminal (seq : List (Int × Int)) (t t2 : Tab) (i j : Fin N)
    (hc : t i j = ACERTO ∨ t i j = ERRO) (h : disparar_seq t seq = some t2) :
    t2 i j = t i j := by
  induction seq generalizing t with
  | nil =>
    simp only [disparar_seq, Option.some.injEq] at h
    rw [h]
  | cons p resto ih =>
    obtain ⟨r, c⟩ := p
    simp only [disparar_seq] at h
    cases hd : disparar t r c with
    | none => simp [hd] at h
    | some q =>
      obtain ⟨res, t1⟩ := q
      simp only [hd] at h
      have e := disparar_fixa_terminal t t1 r c res i j hc hd
      rw [ih t1 (by rw [e]; exact hc) h, e]

/-- C4: for an in-bounds `(r, c)` whose cell is empty or holds a ship, the first
`disparar` returns 0 or 1; after it, and after any further sequence of
`disparar` calls (at other coordinates or at `(r, c)` again), `disparar` at
`(r, c)` returns -1 and leaves the board as it was. The property needs no
assumption on the other cells of the board. -/
theorem disparar_repetido (t : Tab) (r c : Int) (hd : dentro r c = 1)
    (hc : ler t r c = some VAZIO ∨ ler t r c = some NAVIO) :
    ∃ res t1, disparar t r c = some (res, t1) ∧ (res = 0 ∨ res = 1) ∧
      ∀ (seq : List (Int × Int)) (t2 : Tab), disparar_seq t1 seq = some t2 →
        disparar t2 r c = some (-1, t2) := by
  obtain ⟨i, j, hi, hj⟩ := indices_of_dentro r c hd
  rw [ler_of_indice t r c i j hi hj] at hc
  simp only [Option.some.injEq] at hc
  have fim : ∀ t1 : Tab, (t1 i j = ACERTO ∨ t1 i j = ERRO) →
      ∀ (seq : List (Int × Int)) (t2 : Tab), disparar_seq t1 seq = some t2 →
        disparar t2 r c = some (-1, t2) := by
    intro t1 h1 seq t2 h2
    have e := disparar_seq_fixa_terminal seq t1 t2 i j h1 h2
    rw [disparar_of_indice t2 r c i j hi hj, if_pos (by rw [e]; exact h1)]
  rcases hc with hc | hc
  · refine ⟨0, poe t i j ERRO, ?_, Or.inl rfl, fim _ (Or.inr (poe_mesma t i j _))⟩
    rw [disparar_of_indice t r c i j hi hj, hc]
    simp [vazio_ne_navio, vazio_ne_acerto, vazio_ne_erro]
  · refine ⟨1, poe t i j ACERTO, ?_, Or.inr rfl, fim _ (Or.inl (poe_mesma t i j _))⟩
    rw [disparar_of_indice t r c i j hi hj, hc]
    simp [navio_ne_acerto, navio_ne_erro]

theorem disparar_repetido_witness :
    dentro 0 0 = 1 ∧ (ler tab_exemplo 0 0 = some VAZIO ∨ ler tab_exemplo 0 0 = some NAVIO) ∧
      ∃ res t1, disparar tab_exemplo 0 0 = some (res, t1) ∧ (res = 0 ∨ res = 1) ∧
        ∀ (seq : List (Int × Int)) (t2 : Tab), disparar_seq t1 seq = some t2 →
          disparar t2 0 0 = some (-1, t2) :=
  ⟨by decide, by decide, disparar_repetido tab_exemplo 0 0 (by decide) (by decide)⟩

/-- C5: for an in-bounds `(r, c)`, `disparar` returns one of 1, 0, -1 and a
board `t1`; when it returned 1, `navios_restantes t1` is
`navios_restantes t - 1`; when it returned 0 or -1, `navios_restantes t1` is
`navios_restantes t`. -/
theorem disparar_navios_restantes (t : Tab) (r c : Int) (hd : dentro r c = 1) :
    ∃ res t1, disparar t r c = some (res, t1) ∧ (res = 1 ∨ res = 0 ∨ res = -1) ∧
      (res = 1 → navios_restantes t1 = navios_restantes t - 1) ∧
      (res = 0 ∨ res = -1 → navios_restantes t1 = navios_restantes t) := by
  obtain ⟨res, t1, h⟩ := disparar_retorna t r c hd
  refine ⟨res, t1, h, ?_⟩
  obtain ⟨i, j, -, -, k | k | k | k⟩ := disparar_casos t t1 r c res h
  · obtain ⟨e1, e2, -⟩ := k
    subst e1; subst e2
    exact ⟨by decide, fun h0 => absurd h0 (by decide), fun _ => rfl⟩
  · obtain ⟨e1, e2, e3⟩ := k
    subst e1; subst e2
    refine ⟨by decide, fun _ => ?_, fun h0 => absurd h0 (by decide)⟩
    rw [navios_restantes_poe, e3]
    simp [peso, navio_ne_acerto.symm]
  · obtain ⟨e1, e2, e3⟩ := k
    subst e1; subst e2
    refine ⟨by decide, fun h0 => absurd h0 (by decide), fun _ => ?_⟩
    rw [navios_restantes_poe]
    rcases e3 with e3 | e3 <;> rw [e3] <;> simp [peso, navio_ne_erro.symm] <;> decide
  · obtain ⟨e1, e2, -⟩ := k
    subst e1; subst e2
    exact ⟨by decide, fun h0 => absurd h0 (by decide), fun _ => rfl⟩

theorem disparar_navios_restantes_witness :
    dentro 0 0 = 1 ∧
      ∃ res t1, disparar tab_exemplo 0 0 = some (res, t1) ∧ (res = 1 ∨ res = 0 ∨ res = -1) ∧
        (res = 1 → navios_restantes t1 = navios_restantes tab_exemplo - 1) ∧
        (res = 0 ∨ res = -1 → navios_restantes t1 = navios_restantes tab_exemplo) :=
  ⟨by decide, disparar_navios_restantes tab_exemplo 0 0 (by decide)⟩

/-! ## The free-run test -/

theorem mem_corrida (r c len horizontal : Int) (p : Int × Int) :
    p ∈ corrida r c len horizontal ↔
      ∃ k : Nat, k < len.toNat ∧
        p = if horizontal ≠ 0 then (r, c + (k : Int)) else (r + (k : Int), c) := by
  unfold corrida
  simp only [List.mem_map, List.mem_range]
  constructor
  · rintro ⟨k, hk, e⟩; exact ⟨k, hk, e.symm⟩
  · rintro ⟨k, hk, e⟩; exact ⟨k, hk, e.symm⟩

theorem corrida_livre_horizontal (t : Tab) (r c len horizontal : Int) (hh : horizontal ≠ 0) :
    corrida_livre t r c len horizontal ↔
      ∀ k : Nat, k < len.toNat → dentro r (c + k) = 1 ∧ ler t r (c + k) = some VAZIO := by
  unfold corrida_livre
  constructor
  · intro h k hk
    exact h (r, c + k) ((mem_corrida r c len horizontal _).2 ⟨k, hk, by rw [if_pos hh]⟩)
  · intro h p hp
    obtain ⟨k, hk, e⟩ := (mem_corrida r c len horizontal p).1 hp
    rw [if_pos hh] at e
    subst e
    exact h k hk

theorem corrida_livre_vertical (t : Tab) (r c len horizontal : Int) (hh : ¬ horizontal ≠ 0) :
    corrida_livre t r c len horizontal ↔
      ∀ k : Nat, k < len.toNat → dentro (r + k) c = 1 ∧ ler t (r + k) c = some VAZIO := by
  unfold corrida_livre
  constructor
  · intro h k hk
    exact h (r + k, c) ((mem_corrida r c len horizontal _).2 ⟨k, hk, by rw [if_neg hh]⟩)
  · intro h p hp
    obtain ⟨k, hk, e⟩ := (mem_corrida r c len horizontal p).1 hp
    rw [if_neg hh] at e
    subst e
    exact h k hk

theorem ler_some_dentro (t : Tab) (r c : Int) (ch : Char) (h : ler t r c = some ch) :
    dentro r c = 1 := by
  obtain ⟨i, j, hi, hj, -⟩ := (ler_eq_some t r c ch).1 h
  rw [indice_eq_some] at hi hj
  rw [dentro_eq_one]
  have : i.val < 8 := i.isLt
  have : j.val < 8 := j.isLt
  omega

/-- The horizontal loop of `cabe_livre`, when the cells it reads are columns of
the board. -/
theorem cabe_livre_h_spec (t : Tab) (r c : Int) (hr : 0 ≤ r ∧ r < 8) (hc : 0 ≤ c) :
    ∀ (n : Nat) (j : Int), 0 ≤ j → c + j + n ≤ 8 →
      ((∀ k : Nat, k < n → ler t r (c + j + k) = some VAZIO) → cabe_livre_h t r c n j = some 1) ∧
      ((¬ ∀ k : Nat, k < n → ler t r (c + j + k) = some VAZIO) →
        cabe_livre_h t r c n j = some 0) := by
  intro n
  induction n with
  | zero =>
    intro j _ _
    refine ⟨fun _ => rfl, fun h => absurd (fun k hk => absurd hk (Nat.not_lt_zero k)) h⟩
  | succ n ih =>
    intro j hj hb
    push_cast at hb
    obtain ⟨i, hi⟩ := indice_of_dentro r hr
    obtain ⟨b, hb1⟩ := indice_of_dentro (c + j) ⟨by omega, by omega⟩
    have hler := ler_of_indice t r (c + j) i b hi hb1
    have passo : ∀ k : Nat, c + (j + 1) + (k : Int) = c + j + ((k + 1 : Nat) : Int) := by
      intro k; push_cast; ring
    rw [cabe_livre_h, hler]
    simp only
    by_cases hv : t i b = VAZIO
    · rw [if_neg (not_not.mpr hv)]
      obtain ⟨ih1, ih2⟩ := ih (j + 1) (by omega) (by omega)
      constructor
      · intro h
        apply ih1
        intro k hk
        rw [passo]
        exact h (k + 1) (by omega)
      · intro h
        apply ih2
        intro h1
        apply h
        intro k hk
        cases k with
        | zero => simp only [Nat.cast_zero, add_zero, hler, hv]
        | succ k =>
          rw [← passo]
          exact h1 k (by omega)
    · rw [if_pos hv]
      constructor
      · intro h
        have h0 := h 0 (by omega)
        simp only [Nat.cast_zero, add_zero, hler, Option.some.injEq] at h0
        exact absurd h0 hv
      · intro _; rfl

/-- The vertical loop of `cabe_livre`, when the cells it reads are rows of the
board. -/
theorem cabe_livre_v_spec (t : Tab) (r c : Int) (hr : 0 ≤ r) (hc : 0 ≤ c ∧ c < 8) :
    ∀ (n : Nat) (i : Int), 0 ≤ i → r + i + n ≤ 8 →
      ((∀ k : Nat, k < n → ler t (r + i + k) c = some VAZIO) → cabe_livre_v t r c n i = some 1) ∧
      ((¬ ∀ k : Nat, k < n → ler t (r + i + k) c = some VAZIO) →
        cabe_livre_v t r c n i = some 0) := by
  intro n
  induction n with
  | zero =>
    intro i _ _
    refine ⟨fun _ => rfl, fun h => absurd (fun k hk => absurd hk (Nat.not_lt_zero k)) h⟩
  | succ n ih =>
    intro i hi0 hb
    push_cast at hb
    obtain ⟨a, ha⟩ := indice_of_dentro (r + i) ⟨by omega, by omega⟩
    obtain ⟨b, hb1⟩ := indice_of_dentro c hc
    have hler := ler_of_indice t (r + i) c a b ha hb1
    have passo : ∀ k : Nat, r + (i + 1) + (k : Int) = r + i + ((k + 1 : Nat) : Int) := by
      intro k; push_cast; ring
    rw [cabe_livre_v, hler]
    simp only
    by_cases hv : t a b = VAZIO
    · rw [if_neg (not_not.mpr hv)]
      obtain ⟨ih1, ih2⟩ := ih (i + 1) (by omega) (by omega)
      constructor
      · intro h
        apply ih1
        intro k hk
        rw [passo]
        exact h (k + 1) (by omega)
      · intro h
        apply ih2
        intro h1
        apply h
        intro k hk
        cases k with
        | zero => simp only [Nat.cast_zero, add_zero, hler, hv]
        | succ k =>
          rw [← passo]
          exact h1 k (by omega)
    · rw [if_pos hv]
      constructor
      · intro h
        have h0 := h 0 (by omega)
        simp only [Nat.cast_zero, add_zero, hler, Option.some.injEq] at h0
        exact absurd h0 hv
      · intro _; rfl

theorem para_int_id (x : Int) (h1 : -2147483648 ≤ x) (h2 : x ≤ 2147483647) :
    para_int x = x := by
  unfold para_int
  omega

/-- The result of `cabe_livre` at an anchor of the board, for a length of at
least one cell whose sum with the column (horizontal) or the row (vertical) of
the anchor is an `int`. -/
theorem cabe_livre_spec (t : Tab) (r c len horizontal : Int) (hd : dentro r c = 1)
    (hl : 1 ≤ len) (hmax : (if horizontal ≠ 0 then c else r) + len ≤ 2147483647) :
    (corrida_livre t r c len horizontal → cabe_livre t r c len horizontal = some 1) ∧
      (¬ corrida_livre t r c len horizontal → cabe_livre t r c len horizontal = some 0) := by
  rw [dentro_eq_one] at hd
  obtain ⟨hr, hc⟩ := hd
  have hlen : ((len.toNat : Nat) : Int) = len := Int.toNat_of_nonneg (by omega)
  unfold cabe_livre
  by_cases hh : horizontal ≠ 0
  · rw [if_pos hh] at hmax
    rw [if_pos hh, corrida_livre_horizontal t r c len horizontal hh,
      para_int_id (c + len) (by omega) hmax]
    by_cases hfora : c + len > (N : Int)
    · rw [if_pos hfora]
      refine ⟨fun h => ?_, fun _ => rfl⟩
      have h1 := (h (len.toNat - 1) (by omega)).1
      rw [dentro_eq_one] at h1
      simp only [N, Nat.cast_ofNat] at hfora
      omega
    · rw [if_neg hfora]
      simp only [N, Nat.cast_ofNat] at hfora
      obtain ⟨k1, k2⟩ := cabe_livre_h_spec t r c hr hc.1 len.toNat 0 (le_refl 0) (by omega)
      simp only [add_zero] at k1 k2
      constructor
      · intro h
        exact k1 (fun k hk => (h k hk).2)
      · intro h
        apply k2
        intro h1
        exact h (fun k hk => ⟨ler_some_dentro t _ _ _ (h1 k hk), h1 k hk⟩)
  · rw [if_neg hh] at hmax
    rw [if_neg hh, corrida_livre_vertical t r c len horizontal hh,
      para_int_id (r + len) (by omega) hmax]
    by_cases hfora : r + len > (N : Int)
    · rw [if_pos hfora]
      refine ⟨fun h => ?_, fun _ => rfl⟩
      have h1 := (h (len.toNat - 1) (by omega)).1
      rw [dentro_eq_one] at h1
      simp only [N, Nat.cast_ofNat] at hfora
      omega
    · rw [if_neg hfora]
      simp only [N, Nat.cast_ofNat] at hfora
      obtain ⟨k1, k2⟩ := cabe_livre_v_spec t r c hr.1 hc len.toNat 0 (le_refl 0) (by omega)
      simp only [add_zero] at k1 k2
      constructor
      · intro h
        exact k1 (fun k hk => (h k hk).2)
      · intro h
        apply k2
        intro h1
        exact h (fun k hk => ⟨ler_some_dentro t _ _ _ (h1 k hk), h1 k hk⟩)

theorem ler_fin (t : Tab) (i j : Fin N) : ler t (i.val : Int) (j.val : Int) = some (t i j) :=
  ler_of_indice t _ _ i j ((indice_eq_some _ i).2 rfl) ((indice_eq_some _ j).2 rfl)

/-- The horizontal loop of `coloca_navio` on cells that are empty: it returns,
adds one ship cell for each pass and changes the cells of the run only. -/
theorem coloca_navio_h_spec (r c : Int) :
    ∀ (n : Nat) (j : Int) (t : Tab),
      (∀ k : Nat, k < n → ler t r (c + j + k) = some VAZIO) →
      ∃ t1, coloca_navio_h r c n j t = some t1 ∧
        navios_restantes t1 = navios_restantes t + n ∧
        ∀ a b : Int,
          ((a = r ∧ c + j ≤ b ∧ b < c + j + n) → ler t1 a b = some NAVIO) ∧
          (¬ (a = r ∧ c + j ≤ b ∧ b < c + j + n) → ler t1 a b = ler t a b) := by
  intro n
  induction n with
  | zero =>
    intro j t _
    refine ⟨t, rfl, by simp, fun a b => ⟨fun h => ?_, fun _ => rfl⟩⟩
    simp only [Nat.cast_zero, add_zero] at h
    omega
  | succ n ih =>
    intro j t h
    have h0 := h 0 (by omega)
    simp only [Nat.cast_zero, add_zero] at h0
    obtain ⟨i, b0, hi, hb0, hv⟩ := (ler_eq_some t r (c + j) VAZIO).1 h0
    have passo : ∀ k : Nat, c + (j + 1) + (k : Int) = c + j + ((k + 1 : Nat) : Int) := by
      intro k; push_cast; ring
    have hlivre : ∀ k : Nat, k < n →
        ler (poe t i b0 NAVIO) r (c + (j + 1) + k) = some VAZIO := by
      intro k hk
      rw [ler_poe_outra t r (c + j) _ _ i b0 NAVIO hi hb0, passo]
      · exact h (k + 1) (by omega)
      · intro e
        simp only [Prod.mk.injEq] at e
        omega
    obtain ⟨t1, e1, e2, e3⟩ := ih (j + 1) (poe t i b0 NAVIO) hlivre
    refine ⟨t1, ?_, ?_, ?_⟩
    · rw [coloca_navio_h, escrever_of_indice t r (c + j) i b0 NAVIO hi hb0]
      exact e1
    · rw [e2, navios_restantes_poe, hv]
      simp only [peso, vazio_ne_navio, if_false, if_true]
      push_cast
      ring
    · intro a b
      obtain ⟨f1, f2⟩ := e3 a b
      push_cast
      by_cases hab : (a, b) = (r, c + j)
      · simp only [Prod.mk.injEq] at hab
        refine ⟨fun _ => ?_, fun hn => absurd ⟨hab.1, by omega, by omega⟩ hn⟩
        rw [f2 (by omega), hab.1, hab.2]
        exact ler_poe_mesma t r (c + j) i b0 NAVIO hi hb0
      · have hpoe := ler_poe_outra t r (c + j) a b i b0 NAVIO hi hb0 hab
        simp only [Prod.mk.injEq, not_and] at hab
        constructor
        · intro hin
          exact f1 ⟨hin.1, by have := hab hin.1; omega, by omega⟩
        · intro hn
          rw [f2 (by omega), hpoe]

/-- The vertical loop of `coloca_navio` on cells that are empty: it returns,
adds one ship cell for each pass and changes the cells of the run only. -/
theorem coloca_navio_v_spec (r c : Int) :
    ∀ (n : Nat) (i : Int) (t : Tab),
      (∀ k : Nat, k < n → ler t (r + i + k) c = some VAZIO) →
      ∃ t1, coloca_navio_v r c n i t = some t1 ∧
        navios_restantes t1 = navios_restantes t + n ∧
        ∀ a b : Int,
          ((b = c ∧ r + i ≤ a ∧ a < r + i + n) → ler t1 a b = some NAVIO) ∧
          (¬ (b = c ∧ r + i ≤ a ∧ a < r + i + n) → ler t1 a b = ler t a b) := by
  intro n
  induction n with
  | zero =>
    intro i t _
    refine ⟨t, rfl, by simp, fun a b => ⟨fun h => ?_, fun _ => rfl⟩⟩
    simp only [Nat.cast_zero, add_zero] at h
    omega
  | succ n ih =>
    intro i t h
    have h0 := h 0 (by omega)
    simp only [Nat.cast_zero, add_zero] at h0
    obtain ⟨a0, j, ha0, hj, hv⟩ := (ler_eq_some t (r + i) c VAZIO).1 h0
    have passo : ∀ k : Nat, r + (i + 1) + (k : Int) = r + i + ((k + 1 : Nat) : Int) := by
      intro k; push_cast; ring
    have hlivre : ∀ k : Nat, k < n →
        ler (poe t a0 j NAVIO) (r + (i + 1) + k) c = some VAZIO := by
      intro k hk
      rw [ler_poe_outra t (r + i) c _ _ a0 j NAVIO ha0 hj, passo]
      · exact h (k + 1) (by omega)
      · intro e
        simp only [Prod.mk.injEq] at e
        omega
    obtain ⟨t1, e1, e2, e3⟩ := ih (i + 1) (poe t a0 j NAVIO) hlivre
    refine ⟨t1, ?_, ?_, ?_⟩
    · rw [coloca_navio_v, escrever_of_indice t (r + i) c a0 j NAVIO ha0 hj]
      exact e1
    · rw [e2, navios_restantes_poe, hv]
      simp only [peso, vazio_ne_navio, if_false, if_true]
      push_cast
      ring
    · intro a b
      obtain ⟨f1, f2⟩ := e3 a b
      push_cast
      by_cases hab : (a, b) = (r + i, c)
      · simp only [Prod.mk.injEq] at hab
        refine ⟨fun _ => ?_, fun hn => absurd ⟨hab.2, by omega, by omega⟩ hn⟩
        rw [f2 (by omega), hab.1, hab.2]
        exact ler_poe_mesma t (r + i) c a0 j NAVIO ha0 hj
      · have hpoe := ler_poe_outra t (r + i) c a b a0 j NAVIO ha0 hj hab
        simp only [Prod.mk.injEq, not_and] at hab
        constructor
        · intro hin
          exact f1 ⟨hin.1, by have := fun e => hab e hin.1; omega, by omega⟩
        · intro hn
          rw [f2 (by omega), hpoe]

/-- On a free run `coloca_navio` returns; the board it leaves has `len` more
ship cells, holds a ship on every cell of the run and is unchanged elsewhere. -/
theorem coloca_navio_spec (t : Tab) (r c len horizontal : Int) (hl : 0 ≤ len)
    (hlivre : corrida_livre t r c len horizontal) :
    ∃ t1, coloca_navio t r c len horizontal = some t1 ∧
      navios_restantes t1 = navios_restantes t + len ∧
      ∀ a b : Int,
        ((a, b) ∈ corrida r c len horizontal → ler t1 a b = some NAVIO) ∧
        ((a, b) ∉ corrida r c len horizontal → ler t1 a b = ler t a b) := by
  have hlen : ((len.toNat : Nat) : Int) = len := Int.toNat_of_nonneg hl
  unfold coloca_navio
  by_cases hh : horizontal ≠ 0
  · rw [if_pos hh]
    rw [corrida_livre_horizontal t r c len horizontal hh] at hlivre
    obtain ⟨t1, e1, e2, e3⟩ := coloca_navio_h_spec r c len.toNat 0 t
      (fun k hk => by rw [add_zero]; exact (hlivre k hk).2)
    refine ⟨t1, e1, by rw [e2, hlen], fun a b => ?_⟩
    have hmem : (a, b) ∈ corrida r c len horizontal ↔
        (a = r ∧ c + 0 ≤ b ∧ b < c + 0 + (len.toNat : Int)) := by
      simp only [mem_corrida, if_pos hh]
      constructor
      · rintro ⟨k, hk, e⟩
        simp only [Prod.mk.injEq] at e
        omega
      · rintro ⟨ha, h1, h2⟩
        refine ⟨(b - c).toNat, by omega, ?_⟩
        simp only [Prod.mk.injEq]
        omega
    rw [hmem]
    exact e3 a b
  · rw [if_neg hh]
    rw [corrida_livre_vertical t r c len horizontal hh] at hlivre
    obtain ⟨t1, e1, e2, e3⟩ := coloca_navio_v_spec r c len.toNat 0 t
      (fun k hk => by rw [add_zero]; exact (hlivre k hk).2)
    refine ⟨t1, e1, by rw [e2, hlen], fun a b => ?_⟩
    have hmem : (a, b) ∈ corrida r c len horizontal ↔
        (b = c ∧ r + 0 ≤ a ∧ a < r + 0 + (len.toNat : Int)) := by
      simp only [mem_corrida, if_neg hh]
      constructor
      · rintro ⟨k, hk, e⟩
        simp only [Prod.mk.injEq] at e
        omega
      · rintro ⟨ha, h1, h2⟩
        refine ⟨(a - r).toNat, by omega, ?_⟩
        simp only [Prod.mk.injEq]
        omega
    rw [hmem]
    exact e3 a b

/-! ## Placing the fleet -/

theorem frota_tam_eq : FROTA_TAM = 5 := by decide

theorem frota_len_pos (k : Int) (h0 : 0 ≤ k) (h5 : k < 5) :
    ∃ len, frota_len k = some len ∧ 1 ≤ len := by
  interval_cases k <;> exact ⟨_, rfl, by decide⟩

theorem frota_len_lim (k len : Int) (h : frota_len k = some len) : 2 ≤ len ∧ len ≤ 4 := by
  unfold frota_len at h
  split at h
  · generalize k.toNat = m at h
    rcases m with _ | _ | _ | _ | _ | m <;> simp [FROTA] at h <;> omega
  · simp at h

/-- The sum `cabe_livre` forms for a drawn anchor and a ship of the fleet is
far from the limit of `int`. -/
theorem soma_sorteio (d1 d2 d3 : Nat) (len : Int) (h : len ≤ 4) :
    (if (d1 : Int) % 2 ≠ 0 then (d3 : Int) % 8 else (d2 : Int) % 8) + len ≤ 2147483647 := by
  split <;> omega

theorem dentro_sorteio (d2 d3 : Nat) : dentro ((d2 : Int) % 8) ((d3 : Int) % 8) = 1 := by
  rw [dentro_eq_one]
  omega

/-- Induction over the passes of `coloca_frota_aleatoria`: a property of the
board and the ship index that holds for the cleared board at index 0 and is
kept when a ship is written on a free run holds, at index 5, for the board the
function returns. -/
theorem coloca_frota_enquanto_inv (I : Tab → Int → Prop)
    (hzero : ∀ t : Tab, I (init_tab t VAZIO) 0)
    (hpasso : ∀ (t t1 : Tab) (k len r c horizontal : Int), I t k → 0 ≤ k → k < 5 →
      frota_len k = some len → dentro r c = 1 → corrida_livre t r c len horizontal →
      coloca_navio t r c len horizontal = some t1 → I t1 (k + 1)) :
    ∀ (m : Nat) (sorteios : List Nat) (t : Tab) (k tentativas : Int) (res : Tab × List Nat),
      sorteios.length ≤ m → 0 ≤ k → k < 5 → I t k →
      coloca_frota_enquanto sorteios t k tentativas = some res → I res.1 5 := by
  intro m
  induction m with
  | zero =>
    intro sorteios t k tentativas res hm _ _ _ h
    match sorteios, hm, h with
    | [], _, h => simp [coloca_frota_enquanto] at h
  | succ m ih =>
    intro sorteios t k tentativas res hm hk0 hk5 hI h
    match sorteios, hm, h with
    | [], _, h => simp [coloca_frota_enquanto] at h
    | [_], _, h => simp [coloca_frota_enquanto] at h
    | [_, _], _, h => simp [coloca_frota_enquanto] at h
    | d1 :: d2 :: d3 :: resto, hm, h =>
      have hm1 : resto.length ≤ m := by
        simp only [List.length_cons] at hm
        omega
      obtain ⟨len, hlen, hpos⟩ := frota_len_pos k hk0 hk5
      have hd := dentro_sorteio d2 d3
      obtain ⟨c1, c2⟩ := cabe_livre_spec t _ _ len ((d1 : Int) % 2) hd hpos
        (soma_sorteio d1 d2 d3 len (frota_len_lim k len hlen).2)
      rw [coloca_frota_enquanto] at h
      simp only [hlen, N, Nat.cast_ofNat, frota_tam_eq] at h
      by_cases hl : corrida_livre t ((d2 : Int) % 8) ((d3 : Int) % 8) len ((d1 : Int) % 2)
      · obtain ⟨t1, e1, -⟩ := coloca_navio_spec t _ _ len _ (by omega) hl
        have hI1 := hpasso t t1 k len _ _ _ hI hk0 hk5 hlen hd hl e1
        rw [c1 hl] at h
        simp only [e1, ne_eq, one_ne_zero, not_false_eq_true, if_true] at h
        by_cases hk : k + 1 < 5
        · rw [if_pos hk] at h
          exact ih resto t1 (k + 1) 0 res hm1 (by omega) hk hI1 h
        · rw [if_neg hk] at h
          simp only [Option.some.injEq] at h
          rw [← h]
          have : k + 1 = 5 := by omega
          rw [← this]
          exact hI1
      · rw [c2 hl] at h
        simp only [ne_eq, not_true_eq_false, if_false] at h
        by_cases ht : tentativas + 1 > 5000
        · rw [if_pos ht] at h
          simp only [Int.reduceNeg, Int.reduceAdd, Int.reduceLT, if_true] at h
          exact ih resto (init_tab t VAZIO) 0 0 res hm1 (le_refl 0) (by decide) (hzero t) h
        · rw [if_neg ht] at h
          exact ih resto t k (tentativas + 1) res hm1 hk0 hk5 hI h

/-- The same induction for `coloca_frota_aleatoria` started on an empty board. -/
theorem coloca_frota_aleatoria_inv (I : Tab → Int → Prop)
    (hzero : ∀ t : Tab, I (init_tab t VAZIO) 0)
    (hpasso : ∀ (t t1 : Tab) (k len r c horizontal : Int), I t k → 0 ≤ k → k < 5 →
      frota_len k = some len → dentro r c = 1 → corrida_livre t r c len horizontal →
      coloca_navio t r c len horizontal = some t1 → I t1 (k + 1))
    (t t1 : Tab) (sorteios resto : List Nat) (hv : ∀ i j : Fin N, t i j = VAZIO)
    (h : coloca_frota_aleatoria t sorteios = some (t1, resto)) : I t1 5 := by
  have ht : t = init_tab t VAZIO := by
    funext i j
    exact hv i j
  unfold coloca_frota_aleatoria at h
  rw [frota_tam_eq, if_pos (by decide)] at h
  have h0 : I t 0 := by rw [ht]; exact hzero t
  exact coloca_frota_enquanto_inv I hzero hpasso sorteios.length sorteios t 0 0 (t1, resto)
    (le_refl _) (le_refl 0) (by decide) h0 h

theorem navios_restantes_eq_card (t : Tab) :
    navios_restantes t =
      ((Finset.univ.filter fun p : Fin N × Fin N => t p.1 p.2 = NAVIO).card : Int) := by
  rw [navios_restantes_eq_sum, Finset.card_filter]
  push_cast
  rw [Fintype.sum_prod_type]
  rfl

theorem navios_restantes_init (t : Tab) : navios_restantes (init_tab t VAZIO) = 0 := by
  rw [navios_restantes_eq_sum]
  simp [init_tab, peso, vazio_ne_navio]

theorem frota_take_succ (k len : Int) (h0 : 0 ≤ k) (h5 : k < 5) (hlen : frota_len k = some len) :
    FROTA.take (k + 1).toNat = FROTA.take k.toNat ++ [len] := by
  interval_cases k <;> simp only [frota_len, FROTA] at hlen <;>
    simp at hlen <;> subst hlen <;> decide

/-- A returned pair is the expected one when the draws left over agree and the
boards agree cell by cell. -/
theorem resultado_eq (res : Option (Tab × List Nat)) (t1 : Tab) (resto : List Nat)
    (h1 : res.map Prod.snd = some resto)
    (h2 : ∀ i j : Fin N, res.map (fun p => p.1 i j) = some (t1 i j)) :
    res = some (t1, resto) := by
  cases res with
  | none => simp at h1
  | some p =>
    obtain ⟨t, l⟩ := p
    simp only [Option.map_some', Option.some.injEq] at h1 h2
    subst h1
    have : t = t1 := by
      funext i j
      exact h2 i j
    rw [this]

/-- The board `coloca_frota_aleatoria` returns from an empty board counts 14
ship cells and holds nothing but ship cells and empty cells. -/
theorem coloca_frota_contagem (t t1 : Tab) (sorteios resto : List Nat)
    (hv : ∀ i j : Fin N, t i j = VAZIO)
    (h : coloca_frota_aleatoria t sorteios = some (t1, resto)) :
    navios_restantes t1 = 14 ∧ ∀ i j : Fin N, t1 i j = NAVIO ∨ t1 i j = VAZIO := by
  have key := coloca_frota_aleatoria_inv
    (fun t k => navios_restantes t = (FROTA.take k.toNat).sum ∧
      ∀ i j : Fin N, t i j = NAVIO ∨ t i j = VAZIO)
    (fun t => ⟨by rw [navios_restantes_init]; rfl, fun _ _ => Or.inr rfl⟩)
    (by
      intro t t1 k len r c horizontal hI hk0 hk5 hlen _ hl e1
      obtain ⟨len1, hlen1, hpos⟩ := frota_len_pos k hk0 hk5
      rw [hlen] at hlen1
      simp only [Option.some.injEq] at hlen1
      subst hlen1
      obtain ⟨t2, e2, hn, hcel⟩ := coloca_navio_spec t r c len horizontal (by omega) hl
      rw [e1] at e2
      simp only [Option.some.injEq] at e2
      subst e2
      refine ⟨?_, fun i j => ?_⟩
      · rw [hn, hI.1, frota_take_succ k len hk0 hk5 hlen]
        simp
      · obtain ⟨f1, f2⟩ := hcel i.val j.val
        rw [ler_fin, ler_fin] at f2
        rw [ler_fin] at f1
        by_cases hm : ((i.val : Int), (j.val : Int)) ∈ corrida r c len horizontal
        · have := f1 hm
          simp only [Option.some.injEq] at this
          exact Or.inl this
        · have := f2 hm
          simp only [Option.some.injEq] at this
          rw [this]
          exact hI.2 i j)
    t t1 sorteios resto hv h
  refine ⟨?_, key.2⟩
  rw [key.1]
  decide

/-- C6: when `coloca_frota_aleatoria`, started on a board whose cells are all
empty, returns on a sequence of draws, the board it leaves has exactly 14 ship
cells (`navios_restantes` is 14, the sum 4+3+3+2+2 of the fleet) and every
other cell is empty. -/
theorem coloca_frota_catorze (t t1 : Tab) (sorteios resto : List Nat)
    (hv : ∀ i j : Fin N, t i j = VAZIO)
    (h : coloca_frota_aleatoria t sorteios = some (t1, resto)) :
    navios_restantes t1 = 14 ∧ FROTA.sum = 14 ∧
      (Finset.univ.filter fun p : Fin N × Fin N => t1 p.1 p.2 = NAVIO).card = 14 ∧
      ∀ i j : Fin N, t1 i j = NAVIO ∨ t1 i j = VAZIO := by
  have key := coloca_frota_contagem t t1 sorteios resto hv h
  have h14 : navios_restantes t1 = 14 := key.1
  refine ⟨h14, by decide, ?_, key.2⟩
  have hc := navios_restantes_eq_card t1
  rw [h14] at hc
  exact_mod_cast hc.symm

theorem coloca_frota_catorze_witness :
    (∀ i j : Fin N, init_tab tab_exemplo VAZIO i j = VAZIO) ∧
      coloca_frota_aleatoria (init_tab tab_exemplo VAZIO) sorteios_exemplo = some (tab_frota, [9]) ∧
      navios_restantes tab_frota = 14 ∧ FROTA.sum = 14 ∧
      (Finset.univ.filter fun p : Fin N × Fin N => tab_frota p.1 p.2 = NAVIO).card = 14 ∧
      ∀ i j : Fin N, tab_frota i j = NAVIO ∨ tab_frota i j = VAZIO :=
  ⟨by decide, resultado_eq _ _ _ (by decide) (by decide),
    coloca_frota_catorze (init_tab tab_exemplo VAZIO) tab_frota sorteios_exemplo [9]
      (by decide) (resultado_eq _ _ _ (by decide) (by decide))⟩

/-- C7: when `coloca_frota_aleatoria`, started on a board whose cells are all
empty, returns on a sequence of draws, the ship cells of the board it leaves
are the cells of five placed ships of lengths 4, 3, 3, 2, 2, each a straight
run (rightwards or downwards from its anchor) inside the board, and no two of
the five share a cell. -/
theorem coloca_frota_sem_sobreposicao (t t1 : Tab) (sorteios resto : List Nat)
    (hv : ∀ i j : Fin N, t i j = VAZIO)
    (h : coloca_frota_aleatoria t sorteios = some (t1, resto)) :
    ∃ cs : List Colocacao,
      cs.map Colocacao.len = [4, 3, 3, 2, 2] ∧
      (∀ x ∈ cs, ∀ p ∈ x.celulas, dentro p.1 p.2 = 1) ∧
      cs.Pairwise (fun x y => ∀ p ∈ x.celulas, p ∉ y.celulas) ∧
      ∀ a b : Int, ler t1 a b = some NAVIO ↔ ∃ x ∈ cs, (a, b) ∈ x.celulas := by
  have key := coloca_frota_aleatoria_inv
    (fun t k => ∃ cs : List Colocacao,
      cs.map Colocacao.len = FROTA.take k.toNat ∧
      (∀ x ∈ cs, ∀ p ∈ x.celulas, dentro p.1 p.2 = 1) ∧
      cs.Pairwise (fun x y => ∀ p ∈ x.celulas, p ∉ y.celulas) ∧
      ∀ a b : Int, ler t a b = some NAVIO ↔ ∃ x ∈ cs, (a, b) ∈ x.celulas)
    (by
      intro t
      refine ⟨[], rfl, by simp, List.Pairwise.nil, fun a b => ?_⟩
      simp only [List.not_mem_nil, false_and, exists_false, iff_false]
      intro e
      obtain ⟨i, j, -, -, e1⟩ := (ler_eq_some _ a b NAVIO).1 e
      exact absurd e1 vazio_ne_navio)
    (by
      intro t t1 k len r c horizontal hI hk0 hk5 hlen _ hl e1
      obtain ⟨cs, g1, g2, g3, g4⟩ := hI
      obtain ⟨len1, hlen1, hpos⟩ := frota_len_pos k hk0 hk5
      rw [hlen] at hlen1
      simp only [Option.some.injEq] at hlen1
      subst hlen1
      obtain ⟨t2, e2, -, hcel⟩ := coloca_navio_spec t r c len horizontal (by omega) hl
      rw [e1] at e2
      simp only [Option.some.injEq] at e2
      subst e2
      refine ⟨cs ++ [⟨r, c, len, horizontal⟩], ?_, ?_, ?_, ?_⟩
      · rw [List.map_append, g1, frota_take_succ k len hk0 hk5 hlen]
        rfl
      · intro x hx p hp
        rcases List.mem_append.1 hx with hx | hx
        · exact g2 x hx p hp
        · simp only [List.mem_singleton] at hx
          subst hx
          exact (hl p hp).1
      · rw [List.pairwise_append]
        refine ⟨g3, List.pairwise_singleton _ _, ?_⟩
        intro x hx y hy p hp hq
        simp only [List.mem_singleton] at hy
        subst hy
        have hnavio : ler t p.1 p.2 = some NAVIO := (g4 p.1 p.2).2 ⟨x, hx, hp⟩
        rw [(hl p hq).2] at hnavio
        simp only [Option.some.injEq] at hnavio
        exact absurd hnavio vazio_ne_navio
      · intro a b
        obtain ⟨f1, f2⟩ := hcel a b
        by_cases hm : (a, b) ∈ corrida r c len horizontal
        · simp only [f1 hm, true_iff]
          exact ⟨⟨r, c, len, horizontal⟩, by simp, hm⟩
        · rw [f2 hm, g4 a b]
          constructor
          · rintro ⟨x, hx, hp⟩
            exact ⟨x, List.mem_append_left _ hx, hp⟩
          · rintro ⟨x, hx, hp⟩
            rcases List.mem_append.1 hx with hx | hx
            · exact ⟨x, hx, hp⟩
            · simp only [List.mem_singleton] at hx
              subst hx
              exact absurd hp hm)
    t t1 sorteios resto hv h
  exact key

theorem coloca_frota_sem_sobreposicao_witness :
    (∀ i j : Fin N, init_tab tab_exemplo VAZIO i j = VAZIO) ∧
      coloca_frota_aleatoria (init_tab tab_exemplo VAZIO) sorteios_exemplo = some (tab_frota, [9]) ∧
      ∃ cs : List Colocacao,
        cs.map Colocacao.len = [4, 3, 3, 2, 2] ∧
        (∀ x ∈ cs, ∀ p ∈ x.celulas, dentro p.1 p.2 = 1) ∧
        cs.Pairwise (fun x y => ∀ p ∈ x.celulas, p ∉ y.celulas) ∧
        ∀ a b : Int, ler tab_frota a b = some NAVIO ↔ ∃ x ∈ cs, (a, b) ∈ x.celulas :=
  ⟨by decide, resultado_eq _ _ _ (by decide) (by decide),
    coloca_frota_sem_sobreposicao (init_tab tab_exemplo VAZIO) tab_frota sorteios_exemplo [9]
      (by decide) (resultado_eq _ _ _ (by decide) (by decide))⟩

/-! ## The opponent -/

theorem cpu_joga_inv (t : Tab) (hv : Valido t) :
    ∀ (m : Nat) (sorteios : List Nat) (j : Jogada), sorteios.length ≤ m →
      cpu_joga sorteios t = some j →
      dentro j.r j.c = 1 ∧ disparar t j.r j.c = some (j.res, j.tab) ∧
        ((ler t j.r j.c = some VAZIO ∧ ler j.tab j.r j.c = some ERRO ∧ j.res = 0) ∨
          (ler t j.r j.c = some NAVIO ∧ ler j.tab j.r j.c = some ACERTO ∧ j.res = 1)) ∧
        ∀ r1 c1 : Int, (r1, c1) ≠ (j.r, j.c) → ler j.tab r1 c1 = ler t r1 c1 := by
  intro m
  induction m with
  | zero =>
    intro sorteios j hm h
    match sorteios, hm, h with
    | [], _, h => simp [cpu_joga] at h
  | succ m ih =>
    intro sorteios j hm h
    match sorteios, hm, h with
    | [], _, h => simp [cpu_joga] at h
    | [_], _, h => simp [cpu_joga] at h
    | d1 :: d2 :: resto, hm, h =>
      have hm1 : resto.length ≤ m := by
        simp only [List.length_cons] at hm
        omega
      have hd := dentro_sorteio d1 d2
      obtain ⟨a, b, ha, hb⟩ := indices_of_dentro _ _ hd
      rw [cpu_joga] at h
      simp only [N, Nat.cast_ofNat, ler_of_indice t _ _ a b ha hb] at h
      by_cases hterm : t a b = ACERTO ∨ t a b = ERRO
      · rw [if_pos hterm] at h
        exact ih resto j hm1 h
      · rw [if_neg hterm] at h
        obtain ⟨res, t1, hdisp⟩ := disparar_retorna t _ _ hd
        simp only [hdisp, Option.some.injEq] at h
        subst h
        simp only
        refine ⟨hd, hdisp, ?_⟩
        rw [ler_of_indice t _ _ a b ha hb]
        rw [disparar_of_indice t _ _ a b ha hb, if_neg hterm] at hdisp
        simp only [not_or] at hterm
        rcases hv a b with e | e | e | e
        · rw [e] at hdisp ⊢
          simp only [vazio_ne_navio, if_false, if_true, Option.some.injEq, Prod.mk.injEq] at hdisp
          obtain ⟨e1, e2⟩ := hdisp
          subst e1; subst e2
          exact ⟨Or.inl ⟨rfl, ler_poe_mesma t _ _ a b _ ha hb, rfl⟩,
            fun r1 c1 hne => ler_poe_outra t _ _ r1 c1 a b _ ha hb hne⟩
        · rw [e] at hdisp ⊢
          simp only [if_true, Option.some.injEq, Prod.mk.injEq] at hdisp
          obtain ⟨e1, e2⟩ := hdisp
          subst e1; subst e2
          exact ⟨Or.inr ⟨rfl, ler_poe_mesma t _ _ a b _ ha hb, rfl⟩,
            fun r1 c1 hne => ler_poe_outra t _ _ r1 c1 a b _ ha hb hne⟩
        · exact absurd e hterm.1
        · exact absurd e hterm.2

/-- C9: on a board whose cells are all empty, ship, hit or miss, when `cpu_joga`
returns, the coordinate it fired at is a cell of the board that held an empty
cell or a ship before (so not a hit or a miss), the inner `disparar` did not
return -1, that cell went from empty to miss or from ship to hit, and every
other cell is unchanged. -/
theorem cpu_joga_alvo (t : Tab) (sorteios : List Nat) (j : Jogada) (hv : Valido t)
    (h : cpu_joga sorteios t = some j) :
    dentro j.r j.c = 1 ∧
      ler t j.r j.c ≠ some ACERTO ∧ ler t j.r j.c ≠ some ERRO ∧
      disparar t j.r j.c = some (j.res, j.tab) ∧ j.res ≠ -1 ∧
      ((ler t j.r j.c = some VAZIO ∧ ler j.tab j.r j.c = some ERRO) ∨
        (ler t j.r j.c = some NAVIO ∧ ler j.tab j.r j.c = some ACERTO)) ∧
      ∀ r1 c1 : Int, (r1, c1) ≠ (j.r, j.c) → ler j.tab r1 c1 = ler t r1 c1 := by
  obtain ⟨k1, k2, k3, k4⟩ := cpu_joga_inv t hv sorteios.length sorteios j (le_refl _) h
  refine ⟨k1, ?_, ?_, k2, ?_, ?_, k4⟩
  · rcases k3 with e | e <;> rw [e.1] <;> decide
  · rcases k3 with e | e <;> rw [e.1] <;> decide
  · rcases k3 with e | e <;> rw [e.2.2] <;> decide
  · rcases k3 with e | e
    · exact Or.inl ⟨e.1, e.2.1⟩
    · exact Or.inr ⟨e.1, e.2.1⟩

theorem cpu_joga_alvo_witness :
    Valido tab_jogo ∧ cpu_joga sorteios_cpu tab_jogo = some jogada_exemplo ∧
      dentro 1 1 = 1 ∧
      ler tab_jogo 1 1 ≠ some ACERTO ∧ ler tab_jogo 1 1 ≠ some ERRO ∧
      disparar tab_jogo 1 1 = some (1, jogada_exemplo.tab) ∧ (1 : Int) ≠ -1 ∧
      ((ler tab_jogo 1 1 = some VAZIO ∧ ler jogada_exemplo.tab 1 1 = some ERRO) ∨
        (ler tab_jogo 1 1 = some NAVIO ∧ ler jogada_exemplo.tab 1 1 = some ACERTO)) ∧
      ∀ r1 c1 : Int, (r1, c1) ≠ (1, 1) → ler jogada_exemplo.tab r1 c1 = ler tab_jogo r1 c1 :=
  ⟨by decide, rfl, cpu_joga_alvo tab_jogo sorteios_cpu jogada_exemplo (by decide) rfl⟩

/-! ## The printer -/

/-- C10 fails on the code: `tab_frota` and `tab_frota_b` are two boards that
`coloca_frota_aleatoria` builds (two fleets, no shot yet), so they have the
same hits and the same misses, namely none; but `imprime_tabuleiro` with
`revelar_navios = 0` prints them differently: an unhit ship cell is shown as
`~` and an empty cell as `.`, so the text gives away where the ships are. -/
theorem imprime_tabuleiro_mostra_navios :
    coloca_frota_aleatoria (init_tab tab_exemplo VAZIO) sorteios_exemplo = some (tab_frota, [9]) ∧
      coloca_frota_aleatoria (init_tab tab_exemplo VAZIO) sorteios_exemplo_b
        = some (tab_frota_b, []) ∧
      Valido tab_frota ∧ Valido tab_frota_b ∧
      (∀ i j : Fin N, tab_frota i j = ACERTO ↔ tab_frota_b i j = ACERTO) ∧
      (∀ i j : Fin N, tab_frota i j = ERRO ↔ tab_frota_b i j = ERRO) ∧
      celulas_impressas tab_frota 0 ≠ celulas_impressas tab_frota_b 0 ∧
      imprime_tabuleiro tab_frota 0 ≠ imprime_tabuleiro tab_frota_b 0 ∧
      celula_impressa NAVIO 0 = '~' ∧ celula_impressa VAZIO 0 = '.' :=
  ⟨resultado_eq _ _ _ (by decide) (by decide), resultado_eq _ _ _ (by decide) (by decide),
    by decide, by decide, by decide, by decide, by decide, by decide, by decide, by decide⟩

/-! ## Sinking the fleet -/

theorem navios_restantes_zero_iff (t : Tab) :
    navios_restantes t = 0 ↔ ∀ i j : Fin N, t i j ≠ NAVIO := by
  rw [navios_restantes_eq_card, Nat.cast_eq_zero, Finset.card_eq_zero,
    Finset.filter_eq_empty_iff]
  constructor
  · intro h i j
    exact h (Finset.mem_univ (i, j))
  · intro h p _
    exact h p.1 p.2

/-- No shot makes a ship cell. -/
theorem disparar_nao_cria_navio (t t1 : Tab) (r c res : Int) (i j : Fin N)
    (h : disparar t r c = some (res, t1)) (hn : t1 i j = NAVIO) : t i j = NAVIO := by
  have aux : ∀ (a b : Fin N) (v : Char), v ≠ NAVIO → poe t a b v i j = NAVIO → t i j = NAVIO := by
    intro a b v hv e
    by_cases hab : i = a ∧ j = b
    · obtain ⟨rfl, rfl⟩ := hab
      rw [poe_mesma] at e
      exact absurd e hv
    · rwa [poe_outra t a b i j v hab] at e
  obtain ⟨a, b, -, -, k | k | k | k⟩ := disparar_casos t t1 r c res h
  · rw [k.2.1] at hn; exact hn
  · rw [k.2.1] at hn; exact aux a b ACERTO (Ne.symm navio_ne_acerto) hn
  · rw [k.2.1] at hn; exact aux a b ERRO (Ne.symm navio_ne_erro) hn
  · rw [k.2.1] at hn; exact hn

/-- The cell fired at holds no ship afterwards. -/
theorem disparar_alvo_sem_navio (t t1 : Tab) (r c res : Int) (i j : Fin N)
    (hi : indice r = some i) (hj : indice c = some j)
    (h : disparar t r c = some (res, t1)) : t1 i j ≠ NAVIO := by
  obtain ⟨a, b, ha, hb, k⟩ := disparar_casos t t1 r c res h
  rw [hi] at ha
  rw [hj] at hb
  simp only [Option.some.injEq] at ha hb
  subst ha; subst hb
  rcases k with k | k | k | k
  · rw [k.2.1]
    rcases k.2.2 with e | e <;> rw [e] <;> decide
  · rw [k.2.1, poe_mesma]; decide
  · rw [k.2.1, poe_mesma]; decide
  · rw [k.2.1]; exact k.2.2.2.2.1

theorem disparar_seq_navio (seq : List (Int × Int)) (t t2 : Tab) (i j : Fin N)
    (h : disparar_seq t seq = some t2) (hn : t2 i j = NAVIO) :
    t i j = NAVIO ∧ ((i.val : Int), (j.val : Int)) ∉ seq := by
  induction seq generalizing t with
  | nil =>
    simp only [disparar_seq, Option.some.injEq] at h
    subst h
    exact ⟨hn, List.not_mem_nil _⟩
  | cons p resto ih =>
    obtain ⟨r, c⟩ := p
    simp only [disparar_seq] at h
    cases hd : disparar t r c with
    | none => simp [hd] at h
    | some q =>
      obtain ⟨res, t1⟩ := q
      simp only [hd] at h
      obtain ⟨e1, e2⟩ := ih t1 h
      refine ⟨disparar_nao_cria_navio t t1 r c res i j hd e1, ?_⟩
      intro hmem
      rcases List.mem_cons.1 hmem with e | e
      · simp only [Prod.mk.injEq] at e
        exact disparar_alvo_sem_navio t t1 r c res i j ((indice_eq_some r i).2 e.1)
          ((indice_eq_some c j).2 e.2) hd e1
      · exact e2 e

/-- C11: when `disparar` has been applied along a list of coordinates that
holds every cell of `t` in ship state (in any order, with or without shots at
other cells in between), `navios_restantes` of the board left is 0; and for
every board `navios_restantes` is 0 exactly when no cell holds a ship. The
property needs no assumption on the values of the other cells. -/
theorem afundar_todos (t t2 : Tab) (seq : List (Int × Int))
    (hcobre : ∀ i j : Fin N, t i j = NAVIO → ((i.val : Int), (j.val : Int)) ∈ seq)
    (h : disparar_seq t seq = some t2) :
    navios_restantes t2 = 0 ∧
      ∀ u : Tab, navios_restantes u = 0 ↔ ∀ i j : Fin N, u i j ≠ NAVIO := by
  refine ⟨?_, navios_restantes_zero_iff⟩
  rw [navios_restantes_zero_iff]
  intro i j hn
  obtain ⟨e1, e2⟩ := disparar_seq_navio seq t t2 i j h hn
  exact e2 (hcobre i j e1)

theorem afundar_todos_witness :
    (∀ i j : Fin N, tab_exemplo i j = NAVIO →
        ((i.val : Int), (j.val : Int)) ∈ [((1 : Int), (0 : Int)), (0, 0), (3, 3)]) ∧
      disparar_seq tab_exemplo [(1, 0), (0, 0), (3, 3)]
        = some (poe (poe tab_exemplo 0 0 ACERTO) 3 3 ERRO) ∧
      navios_restantes (poe (poe tab_exemplo 0 0 ACERTO) 3 3 ERRO) = 0 ∧
      ∀ u : Tab, navios_restantes u = 0 ↔ ∀ i j : Fin N, u i j ≠ NAVIO :=
  ⟨by decide, rfl,
    afundar_todos tab_exemplo (poe (poe tab_exemplo 0 0 ACERTO) 3 3 ERRO)
      [(1, 0), (0, 0), (3, 3)] (by decide) rfl⟩

/-! ## Ship cells and hit cells -/

theorem conta_eq_sum (t : Tab) (v : Char) :
    conta t v = ∑ r : Fin N, ∑ c : Fin N, (if t r c = v then (1 : Int) else 0) := by
  have h1 : ∀ (r : Fin N) (z : Int),
      (List.finRange N).foldl (fun n c => if t r c = v then n + 1 else n) z
        = z + ∑ c : Fin N, (if t r c = v then (1 : Int) else 0) := by
    intro r z
    have : (fun (n : Int) (c : Fin N) => if t r c = v then n + 1 else n)
        = fun n c => n + (if t r c = v then (1 : Int) else 0) := by
      funext n c
      split <;> simp
    rw [this, foldl_soma, Fin.sum_univ_def]
  unfold conta
  simp only [h1]
  rw [foldl_soma, Fin.sum_univ_def]
  simp

theorem navios_restantes_eq_conta (t : Tab) : navios_restantes t = conta t NAVIO := rfl

theorem conta_poe (t : Tab) (i j : Fin N) (w v : Char) :
    conta (poe t i j w) v
      = conta t v - (if t i j = v then (1 : Int) else 0) + (if w = v then (1 : Int) else 0) := by
  have h : ∀ a b : Fin N, (if poe t i j w a b = v then (1 : Int) else 0)
      = (if t a b = v then (1 : Int) else 0)
        + (if a = i then (if b = j then
            (if w = v then (1 : Int) else 0) - (if t i j = v then (1 : Int) else 0)
          else 0) else 0) := by
    intro a b
    unfold poe
    by_cases ha : a = i
    · by_cases hb : b = j
      · subst ha; subst hb; simp
      · simp [ha, hb]
    · simp [ha]
  rw [conta_eq_sum, conta_eq_sum]
  simp only [h, Finset.sum_add_distrib, Finset.sum_ite_eq', Finset.sum_ite_eq, Finset.mem_univ,
    if_true, Finset.sum_const_zero]
  simp only [Finset.sum_ite_irrel, Finset.sum_const_zero, Finset.sum_ite_eq', Finset.sum_ite_eq,
    Finset.mem_univ, if_true]
  ring

theorem conta_zero (t : Tab) (v : Char) (h : ∀ i j : Fin N, t i j ≠ v) : conta t v = 0 := by
  rw [conta_eq_sum]
  simp [h]

/-- A shot keeps the number of ship cells plus the number of hit cells. -/
theorem disparar_conserva (t t1 : Tab) (r c res : Int) (h : disparar t r c = some (res, t1)) :
    navios_restantes t1 + conta t1 ACERTO = navios_restantes t + conta t ACERTO := by
  rw [navios_restantes_eq_conta, navios_restantes_eq_conta]
  obtain ⟨a, b, -, -, k | k | k | k⟩ := disparar_casos t t1 r c res h
  · rw [k.2.1]
  · rw [k.2.1, conta_poe, conta_poe, k.2.2]
    simp [navio_ne_acerto, navio_ne_acerto.symm]
  · rw [k.2.1, conta_poe, conta_poe]
    have e1 : ERRO ≠ NAVIO := by decide
    have e2 : ERRO ≠ ACERTO := by decide
    have e3 : AGUA ≠ NAVIO := by decide
    have e4 : AGUA ≠ ACERTO := by decide
    rcases k.2.2 with e | e <;> rw [e] <;>
      simp [e1, e2, e3, e4, vazio_ne_navio, vazio_ne_acerto]
  · rw [k.2.1]

/-- The shot `cpu_joga` makes, on any board. -/
theorem cpu_joga_disparo (t : Tab) :
    ∀ (m : Nat) (sorteios : List Nat) (j : Jogada), sorteios.length ≤ m →
      cpu_joga sorteios t = some j →
      dentro j.r j.c = 1 ∧ disparar t j.r j.c = some (j.res, j.tab) := by
  intro m
  induction m with
  | zero =>
    intro sorteios j hm h
    match sorteios, hm, h with
    | [], _, h => simp [cpu_joga] at h
  | succ m ih =>
    intro sorteios j hm h
    match sorteios, hm, h with
    | [], _, h => simp [cpu_joga] at h
    | [_], _, h => simp [cpu_joga] at h
    | d1 :: d2 :: resto, hm, h =>
      have hm1 : resto.length ≤ m := by
        simp only [List.length_cons] at hm
        omega
      have hd := dentro_sorteio d1 d2
      obtain ⟨a, b, ha, hb⟩ := indices_of_dentro _ _ hd
      rw [cpu_joga] at h
      simp only [N, Nat.cast_ofNat, ler_of_indice t _ _ a b ha hb] at h
      by_cases hterm : t a b = ACERTO ∨ t a b = ERRO
      · rw [if_pos hterm] at h
        exact ih resto j hm1 h
      · rw [if_neg hterm] at h
        obtain ⟨res, t1, hdisp⟩ := disparar_retorna t _ _ hd
        simp only [hdisp, Option.some.injEq] at h
        subst h
        exact ⟨hd, hdisp⟩

/-- Every move is a shot at a cell of the board. -/
theorem joga_um (t t3 : Tab) (a : Acao) (h : joga t [a] = some t3) :
    ∃ r c res, disparar t r c = some (res, t3) := by
  cases a with
  | tiro r c =>
    simp only [joga] at h
    cases hd : disparar t r c with
    | none => simp [hd] at h
    | some q =>
      obtain ⟨res, t1⟩ := q
      simp only [hd, Option.some.injEq] at h
      subst h
      exact ⟨r, c, res, hd⟩
  | cpu ds =>
    simp only [joga] at h
    cases hd : cpu_joga ds t with
    | none => simp [hd] at h
    | some j =>
      simp only [hd, Option.some.injEq] at h
      subst h
      exact ⟨j.r, j.c, j.res, (cpu_joga_disparo t ds.length ds j (le_refl _) hd).2⟩

theorem joga_cons (t t2 : Tab) (a : Acao) (resto : List Acao) (h : joga t (a :: resto) = some t2) :
    ∃ t1, joga t [a] = some t1 ∧ joga t1 resto = some t2 := by
  cases a with
  | tiro r c =>
    simp only [joga] at h ⊢
    cases hd : disparar t r c with
    | none => simp [hd] at h
    | some q =>
      obtain ⟨res, t1⟩ := q
      simp only [hd] at h
      exact ⟨t1, rfl, h⟩
  | cpu ds =>
    simp only [joga] at h ⊢
    cases hd : cpu_joga ds t with
    | none => simp [hd] at h
    | some j =>
      simp only [hd] at h
      exact ⟨j.tab, rfl, h⟩

/-- Induction over the moves of a match: a property of boards kept by every
shot holds after any list of moves. -/
theorem joga_inv (P : Tab → Prop)
    (hp : ∀ (t t1 : Tab) (r c res : Int), P t → disparar t r c = some (res, t1) → P t1)
    (acoes : List Acao) (t t2 : Tab) (h0 : P t) (h : joga t acoes = some t2) : P t2 := by
  induction acoes generalizing t with
  | nil =>
    simp only [joga, Option.some.injEq] at h
    rw [← h]
    exact h0
  | cons a resto ih =>
    obtain ⟨t1, e1, e2⟩ := joga_cons t t2 a resto h
    obtain ⟨r, c, res, e3⟩ := joga_um t t1 a e1
    exact ih t1 (hp t t1 r c res h0 e3) e2

/-- C18: a call of `disparar` at an in-bounds coordinate returns and keeps the
number of ship cells plus the number of hit cells, on every board; so does a
returning call of `cpu_joga`; hence on a board built by
`coloca_frota_aleatoria` from an empty board, after any list of moves,
`navios_restantes` is 14 minus the number of hit cells. -/
theorem frota_conservada (t0 t1 t2 : Tab) (sorteios resto : List Nat) (acoes : List Acao)
    (hv : ∀ i j : Fin N, t0 i j = VAZIO)
    (hc : coloca_frota_aleatoria t0 sorteios = some (t1, resto))
    (hj : joga t1 acoes = some t2) :
    (∀ (t : Tab) (r c : Int), dentro r c = 1 →
      ∃ res t3, disparar t r c = some (res, t3) ∧
        navios_restantes t3 + conta t3 ACERTO = navios_restantes t + conta t ACERTO) ∧
    (∀ (t : Tab) (ds : List Nat) (j : Jogada), cpu_joga ds t = some j →
      navios_restantes j.tab + conta j.tab ACERTO = navios_restantes t + conta t ACERTO) ∧
    navios_restantes t2 = 14 - conta t2 ACERTO := by
  refine ⟨?_, ?_, ?_⟩
  · intro t r c hd
    obtain ⟨res, t3, e⟩ := disparar_retorna t r c hd
    exact ⟨res, t3, e, disparar_conserva t t3 r c res e⟩
  · intro t ds j e
    exact disparar_conserva t j.tab j.r j.c j.res
      (cpu_joga_disparo t ds.length ds j (le_refl _) e).2
  · obtain ⟨k1, k2⟩ := coloca_frota_contagem t0 t1 sorteios resto hv hc
    have hz : conta t1 ACERTO = 0 := by
      apply conta_zero
      intro i j
      rcases k2 i j with e | e <;> rw [e] <;> decide
    have hfim := joga_inv
      (fun t => navios_restantes t + conta t ACERTO = 14)
      (fun t t3 r c res hP e => by
        show navios_restantes t3 + conta t3 ACERTO = 14
        rw [disparar_conserva t t3 r c res e]
        exact hP)
      acoes t1 t2 (by show navios_restantes t1 + conta t1 ACERTO = 14; rw [k1, hz]; rfl) hj
    have hfim2 : navios_restantes t2 + conta t2 ACERTO = 14 := hfim
    omega

theorem frota_conservada_witness :
    (∀ i j : Fin N, init_tab tab_exemplo VAZIO i j = VAZIO) ∧
      coloca_frota_aleatoria (init_tab tab_exemplo VAZIO) sorteios_exemplo = some (tab_frota, [9]) ∧
      joga tab_frota acoes_exemplo = some tab_apos_acoes ∧
      (∀ (t : Tab) (r c : Int), dentro r c = 1 →
        ∃ res t3, disparar t r c = some (res, t3) ∧
          navios_restantes t3 + conta t3 ACERTO = navios_restantes t + conta t ACERTO) ∧
      (∀ (t : Tab) (ds : List Nat) (j : Jogada), cpu_joga ds t = some j →
        navios_restantes j.tab + conta j.tab ACERTO = navios_restantes t + conta t ACERTO) ∧
      navios_restantes tab_apos_acoes = 14 - conta tab_apos_acoes ACERTO :=
  ⟨by decide, resultado_eq _ _ _ (by decide) (by decide), rfl,
    frota_conservada (init_tab tab_exemplo VAZIO) tab_frota tab_apos_acoes sorteios_exemplo [9]
      acoes_exemplo (by decide) (resultado_eq _ _ _ (by decide) (by decide)) rfl⟩

/-! ## Boards of a match -/

theorem valido_sem_agua (t : Tab) (hv : Valido t) (i j : Fin N) : t i j ≠ AGUA := by
  rcases hv i j with e | e | e | e <;> rw [e] <;> decide

/-- On a board over the four cell states a shot leaves a board over the four
states, and each cell is unchanged, went from empty to miss, or went from ship
to hit. -/
theorem disparar_transicao (t t1 : Tab) (r c res : Int) (hv : Valido t)
    (h : disparar t r c = some (res, t1)) :
    Valido t1 ∧ ∀ i j : Fin N, t1 i j = t i j ∨ (t i j = VAZIO ∧ t1 i j = ERRO) ∨
      (t i j = NAVIO ∧ t1 i j = ACERTO) := by
  have aux : ∀ (a b : Fin N) (v : Char),
      (v = ACERTO ∧ t a b = NAVIO) ∨ (v = ERRO ∧ t a b = VAZIO) →
      Valido (poe t a b v) ∧ ∀ i j : Fin N, poe t a b v i j = t i j ∨
        (t i j = VAZIO ∧ poe t a b v i j = ERRO) ∨ (t i j = NAVIO ∧ poe t a b v i j = ACERTO) := by
    intro a b v hvv
    constructor
    · intro i j
      by_cases hab : i = a ∧ j = b
      · obtain ⟨rfl, rfl⟩ := hab
        rw [poe_mesma]
        rcases hvv with e | e
        · exact Or.inr (Or.inr (Or.inl e.1))
        · exact Or.inr (Or.inr (Or.inr e.1))
      · rw [poe_outra t a b i j v hab]
        exact hv i j
    · intro i j
      by_cases hab : i = a ∧ j = b
      · obtain ⟨rfl, rfl⟩ := hab
        rw [poe_mesma]
        rcases hvv with e | e
        · exact Or.inr (Or.inr ⟨e.2, e.1⟩)
        · exact Or.inr (Or.inl ⟨e.2, e.1⟩)
      · exact Or.inl (poe_outra t a b i j v hab)
  obtain ⟨a, b, -, -, k | k | k | k⟩ := disparar_casos t t1 r c res h
  · rw [k.2.1]
    exact ⟨hv, fun _ _ => Or.inl rfl⟩
  · rw [k.2.1]
    exact aux a b ACERTO (Or.inl ⟨rfl, k.2.2⟩)
  · rw [k.2.1]
    rcases k.2.2 with e | e
    · exact aux a b ERRO (Or.inr ⟨rfl, e⟩)
    · exact absurd e (valido_sem_agua t hv a b)
  · rw [k.2.1]
    exact ⟨hv, fun _ _ => Or.inl rfl⟩

/-! ## Indices of the placement -/

/-- C19 fails as stated: at the anchor H1 of the example board, whose cell is
empty, with the length 2147483647 and the vertical orientation, the `int` sum
`r + len` wraps to a negative number, the bounds test lets the run through,
and after the read of the anchor the loop of `cabe_livre` reads the cell of
row index 8 and column index 0, outside the board. -/
theorem cabe_livre_le_fora :
    dentro 7 0 = 1 ∧ (1 : Int) ≤ 2147483647 ∧
      ¬ (para_int (7 + 2147483647) > (N : Int)) ∧
      cabe_livre_v tab_exemplo 7 0 2 0 = none ∧ dentro 8 0 = 0 ∧
      cabe_livre tab_exemplo 7 0 2147483647 0 = none := by
  decide

/-- C19, amended: for an anchor `(r, c)` of the board and a length `len ≥ 1`
whose sum with the column of the anchor (horizontal) or with its row
(vertical) is at most `INT_MAX = 2147483647`, `cabe_livre` returns 0 or 1, so
none of its reads left the board; when it returns 1 every cell of the run lies
in rows and columns 0..7 and `coloca_navio` with the same arguments returns,
so none of its writes left the board, and it changes no cell outside the run.
The anchors that `coloca_frota_aleatoria` draws are cells of the board, and
the ships of the fleet have lengths from 2 to 4. -/
theorem colocacao_dentro (t : Tab) (r c len horizontal : Int) (hd : dentro r c = 1)
    (hl : 1 ≤ len) (hmax : (if horizontal ≠ 0 then c else r) + len ≤ 2147483647) :
    (cabe_livre t r c len horizontal = some 0 ∨ cabe_livre t r c len horizontal = some 1) ∧
      (cabe_livre t r c len horizontal = some 1 →
        (∀ p ∈ corrida r c len horizontal, dentro p.1 p.2 = 1) ∧
        ∃ t1, coloca_navio t r c len horizontal = some t1 ∧
          ∀ a b : Int, (a, b) ∉ corrida r c len horizontal → ler t1 a b = ler t a b) ∧
      (∀ d2 d3 : Nat, dentro ((d2 : Int) % 8) ((d3 : Int) % 8) = 1) ∧
      ∀ k l : Int, frota_len k = some l → 2 ≤ l ∧ l ≤ 4 := by
  obtain ⟨k1, k2⟩ := cabe_livre_spec t r c len horizontal hd hl hmax
  refine ⟨?_, ?_, dentro_sorteio, frota_len_lim⟩
  · by_cases hlivre : corrida_livre t r c len horizontal
    · exact Or.inr (k1 hlivre)
    · exact Or.inl (k2 hlivre)
  · intro h
    have hlivre : corrida_livre t r c len horizontal := by
      by_contra hn
      rw [k2 hn] at h
      exact absurd h (by decide)
    obtain ⟨t1, e1, -, e3⟩ := coloca_navio_spec t r c len horizontal (by omega) hlivre
    exact ⟨fun p hp => (hlivre p hp).1, t1, e1, fun a b hab => (e3 a b).2 hab⟩

theorem colocacao_dentro_witness :
    dentro 0 2 = 1 ∧ (1 : Int) ≤ 3 ∧
      (if (1 : Int) ≠ 0 then (2 : Int) else 0) + 3 ≤ 2147483647 ∧
      (cabe_livre tab_exemplo 0 2 3 1 = some 0 ∨ cabe_livre tab_exemplo 0 2 3 1 = some 1) ∧
      (cabe_livre tab_exemplo 0 2 3 1 = some 1 →
        (∀ p ∈ corrida 0 2 3 1, dentro p.1 p.2 = 1) ∧
        ∃ t1, coloca_navio tab_exemplo 0 2 3 1 = some t1 ∧
          ∀ a b : Int, (a, b) ∉ corrida 0 2 3 1 → ler t1 a b = ler tab_exemplo a b) ∧
      (∀ d2 d3 : Nat, dentro ((d2 : Int) % 8) ((d3 : Int) % 8) = 1) ∧
      ∀ k l : Int, frota_len k = some l → 2 ≤ l ∧ l ≤ 4 :=
  ⟨by decide, by decide, by decide,
    colocacao_dentro tab_exemplo 0 2 3 1 (by decide) (by decide) (by decide)⟩

/-! ## Saturation -/

/-- A run of `coloca_frota_aleatoria` is its passes one after the other. -/
theorem coloca_frota_enquanto_passo (t : Tab) (k n : Int) (d1 d2 d3 : Nat) (resto : List Nat) :
    coloca_frota_enquanto (d1 :: d2 :: d3 :: resto) t k n =
      match coloca_frota_passo t k n d1 d2 d3 with
      | none => none
      | some (t1, none) => some (t1, resto)
      | some (t1, some (k1, n1)) => coloca_frota_enquanto resto t1 k1 n1 := by
  rw [coloca_frota_enquanto]
  unfold coloca_frota_passo
  cases frota_len k with
  | none => rfl
  | some len =>
    simp only
    cases cabe_livre t ((d2 : Int) % (N : Int)) ((d3 : Int) % (N : Int)) len ((d1 : Int) % 2) with
    | none => rfl
    | some cabe =>
      simp only
      by_cases hc : cabe ≠ 0
      · rw [if_pos hc, if_pos hc]
        cases coloca_navio t ((d2 : Int) % (N : Int)) ((d3 : Int) % (N : Int)) len
            ((d1 : Int) % 2) with
        | none => rfl
        | some t1 =>
          simp only
          by_cases hk : k + 1 < FROTA_TAM
          · rw [if_pos hk, if_pos hk]
          · rw [if_neg hk, if_neg hk]
      · rw [if_neg hc, if_neg hc]
        by_cases hn : n + 1 > 5000
        · rw [if_pos hn, if_pos hn]
          by_cases hz : (-1 : Int) + 1 < FROTA_TAM
          · rw [if_pos hz, if_pos hz]
          · rw [if_neg hz, if_neg hz]
        · rw [if_neg hn, if_neg hn]

/-- A pass whose sample is rejected: the counter goes up by one, or past 5000
the board is cleared and the fleet starts again. -/
theorem coloca_frota_passo_rejeitado (t : Tab) (k n len : Int) (d1 d2 d3 : Nat)
    (hk : frota_len k = some len)
    (hrej : cabe_livre t ((d2 : Int) % 8) ((d3 : Int) % 8) len ((d1 : Int) % 2) = some 0) :
    coloca_frota_passo t k n d1 d2 d3 =
      if n + 1 > 5000 then some (init_tab t VAZIO, some (0, 0))
      else some (t, some (k, n + 1)) := by
  unfold coloca_frota_passo
  simp only [hk, N, Nat.cast_ofNat, hrej, ne_eq, not_true_eq_false, if_false, frota_tam_eq]
  by_cases hn : n + 1 > 5000
  · rw [if_pos hn, if_pos hn]
    rfl
  · rw [if_neg hn, if_neg hn]

/-- C16: when a rejected sample takes the counter past 5000, for any ship of
the fleet, the pass ends at the head of `while (1)` with the cleared board,
ship index 0 (the ship of length 4) and the counter at zero, and the run goes
on exactly as a run started there. -/
theorem saturacao_recomeca (t : Tab) (k tentativas len : Int) (d1 d2 d3 : Nat)
    (resto : List Nat) (hk : frota_len k = some len)
    (hrej : cabe_livre t ((d2 : Int) % 8) ((d3 : Int) % 8) len ((d1 : Int) % 2) = some 0)
    (hsat : tentativas + 1 > 5000) :
    coloca_frota_passo t k tentativas d1 d2 d3 = some (init_tab t VAZIO, some (0, 0)) ∧
      coloca_frota_enquanto (d1 :: d2 :: d3 :: resto) t k tentativas
        = coloca_frota_enquanto resto (init_tab t VAZIO) 0 0 ∧
      (∀ i j : Fin N, init_tab t VAZIO i j = VAZIO) ∧ frota_len 0 = some 4 := by
  have hp := coloca_frota_passo_rejeitado t k tentativas len d1 d2 d3 hk hrej
  rw [if_pos hsat] at hp
  refine ⟨hp, ?_, fun _ _ => rfl, rfl⟩
  rw [coloca_frota_enquanto_passo, hp]

theorem saturacao_recomeca_witness :
    frota_len 1 = some 3 ∧
      cabe_livre tab_frota (((7 : Nat) : Int) % 8) (((7 : Nat) : Int) % 8) 3 (((7 : Nat) : Int) % 2)
        = some 0 ∧
      (5000 : Int) + 1 > 5000 ∧
      coloca_frota_passo tab_frota 1 5000 7 7 7 = some (init_tab tab_frota VAZIO, some (0, 0)) ∧
      coloca_frota_enquanto (7 :: 7 :: 7 :: sorteios_bons) tab_frota 1 5000
        = coloca_frota_enquanto sorteios_bons (init_tab tab_frota VAZIO) 0 0 ∧
      (∀ i j : Fin N, init_tab tab_frota VAZIO i j = VAZIO) ∧ frota_len 0 = some 4 :=
  ⟨by decide, by decide, by decide,
    saturacao_recomeca tab_frota 1 5000 3 7 7 7 sorteios_bons (by decide) (by decide) (by decide)⟩

/-! ## The attempt counter -/

theorem frota_len_dois (k : Int) (h0 : 0 ≤ k) (h5 : k < 5) :
    ∃ len, frota_len k = some len ∧ 2 ≤ len := by
  interval_cases k <;> exact ⟨_, rfl, by decide⟩

/-- A horizontal ship of two cells or more anchored at H8 does not fit. -/
theorem cabe_livre_canto (t : Tab) (len : Int) (hl : 2 ≤ len) (hl4 : len ≤ 4) :
    cabe_livre t (((7 : Nat) : Int) % 8) (((7 : Nat) : Int) % 8) len (((7 : Nat) : Int) % 2)
      = some 0 := by
  have e8 : ((7 : Nat) : Int) % 8 = 7 := by decide
  have e2 : ((7 : Nat) : Int) % 2 = 1 := by decide
  rw [e8, e2]
  unfold cabe_livre
  rw [if_pos (by decide), para_int_id (7 + len) (by omega) (by omega),
    if_pos (by simp only [N, Nat.cast_ofNat]; omega)]

/-- The pass on the draws 7, 7, 7 is a rejected sample. -/
theorem coloca_frota_passo_sete (t : Tab) (k n : Int) (h0 : 0 ≤ k) (h5 : k < 5) :
    coloca_frota_passo t k n 7 7 7 =
      if n + 1 > 5000 then some (init_tab t VAZIO, some (0, 0))
      else some (t, some (k, n + 1)) := by
  obtain ⟨len, hlen, hl⟩ := frota_len_dois k h0 h5
  exact coloca_frota_passo_rejeitado t k n len 7 7 7 hlen
    (cabe_livre_canto t len hl (frota_len_lim k len hlen).2)

/-- A pass from a ship index of the fleet and a counter in 0..5000 returns the
function or ends at such an index and counter again. -/
theorem coloca_frota_passo_valido (t : Tab) (k n : Int) (d1 d2 d3 : Nat)
    (h0 : 0 ≤ k) (h5 : k < 5) (hn0 : 0 ≤ n) (hn : n ≤ 5000) :
    (∃ t1, coloca_frota_passo t k n d1 d2 d3 = some (t1, none)) ∨
      ∃ t1 k1 n1, coloca_frota_passo t k n d1 d2 d3 = some (t1, some (k1, n1)) ∧
        (0 ≤ k1 ∧ k1 < 5) ∧ (0 ≤ n1 ∧ n1 ≤ 5000) := by
  obtain ⟨len, hlen, hpos⟩ := frota_len_pos k h0 h5
  have hd := dentro_sorteio d2 d3
  obtain ⟨c1, c2⟩ := cabe_livre_spec t _ _ len ((d1 : Int) % 2) hd hpos
    (soma_sorteio d1 d2 d3 len (frota_len_lim k len hlen).2)
  by_cases hl : corrida_livre t ((d2 : Int) % 8) ((d3 : Int) % 8) len ((d1 : Int) % 2)
  · obtain ⟨t1, e1, -⟩ := coloca_navio_spec t _ _ len _ (by omega) hl
    unfold coloca_frota_passo
    simp only [hlen, N, Nat.cast_ofNat, c1 hl, e1, ne_eq, one_ne_zero, not_false_eq_true,
      if_true, frota_tam_eq]
    by_cases hk : k + 1 < 5
    · rw [if_pos hk]
      exact Or.inr ⟨t1, k + 1, 0, rfl, ⟨by omega, hk⟩, ⟨le_refl 0, by decide⟩⟩
    · rw [if_neg hk]
      exact Or.inl ⟨t1, rfl⟩
  · rw [coloca_frota_passo_rejeitado t k n len d1 d2 d3 hlen (c2 hl)]
    by_cases hs : n + 1 > 5000
    · rw [if_pos hs]
      exact Or.inr ⟨_, 0, 0, rfl, ⟨le_refl 0, by decide⟩, ⟨le_refl 0, by decide⟩⟩
    · rw [if_neg hs]
      exact Or.inr ⟨t, k, n + 1, rfl, ⟨h0, h5⟩, ⟨by omega, by omega⟩⟩

theorem coloca_frota_amostras_validas :
    ∀ (m : Nat) (sorteios : List Nat) (t : Tab) (k0 n0 : Int), sorteios.length ≤ m →
      0 ≤ k0 → k0 < 5 → 0 ≤ n0 → n0 ≤ 5000 →
      ∀ x ∈ coloca_frota_amostras sorteios t k0 n0,
        (0 ≤ x.1 ∧ x.1 < 5) ∧ (0 ≤ x.2 ∧ x.2 ≤ 5000) := by
  intro m
  induction m with
  | zero =>
    intro sorteios t k0 n0 hm _ _ _ _ x hx
    match sorteios, hm, hx with
    | [], _, hx => simp [coloca_frota_amostras] at hx
  | succ m ih =>
    intro sorteios t k0 n0 hm h0 h5 hn0 hn x hx
    match sorteios, hm, hx with
    | [], _, hx => simp [coloca_frota_amostras] at hx
    | [_], _, hx => simp [coloca_frota_amostras] at hx
    | [_, _], _, hx => simp [coloca_frota_amostras] at hx
    | d1 :: d2 :: d3 :: resto, hm, hx =>
      have hm1 : resto.length ≤ m := by
        simp only [List.length_cons] at hm
        omega
      rw [coloca_frota_amostras] at hx
      rcases List.mem_cons.1 hx with e | e
      · rw [e]
        exact ⟨⟨h0, h5⟩, ⟨hn0, hn⟩⟩
      · rcases coloca_frota_passo_valido t k0 n0 d1 d2 d3 h0 h5 hn0 hn with
          ⟨t1, hp⟩ | ⟨t1, k1, n1, hp, hk1, hn1⟩
        · rw [hp] at e
          simp at e
        · rw [hp] at e
          exact ih resto t1 k1 n1 hm1 hk1.1 hk1.2 hn1.1 hn1.2 x e

/-- After `m` rejected samples that keep the counter within 5000 the run is at
the same ship on the same board with the counter `m` higher. -/
theorem coloca_frota_enquanto_rejeitados (t : Tab) (k : Int) (l : List Nat)
    (h0 : 0 ≤ k) (h5 : k < 5) :
    ∀ (m : Nat) (n : Int), n + m ≤ 5000 →
      coloca_frota_enquanto (List.replicate (3 * m) 7 ++ l) t k n
        = coloca_frota_enquanto l t k (n + m) := by
  intro m
  induction m with
  | zero =>
    intro n _
    simp
  | succ m ih =>
    intro n hn
    push_cast at hn
    have e : List.replicate (3 * (m + 1)) 7 ++ l = 7 :: 7 :: 7 :: (List.replicate (3 * m) 7 ++ l) :=
      rfl
    rw [e, coloca_frota_enquanto_passo, coloca_frota_passo_sete t k n h0 h5,
      if_neg (by omega)]
    simp only
    rw [ih (n + 1) (by omega)]
    push_cast
    congr 1
    ring

/-- The samples of a run that follows `m` rejected samples are samples of the
whole run. -/
theorem coloca_frota_amostras_rejeitados (t : Tab) (k : Int) (l : List Nat)
    (h0 : 0 ≤ k) (h5 : k < 5) :
    ∀ (m : Nat) (n : Int), n + m ≤ 5000 →
      ∀ x ∈ coloca_frota_amostras l t k (n + m),
        x ∈ coloca_frota_amostras (List.replicate (3 * m) 7 ++ l) t k n := by
  intro m
  induction m with
  | zero =>
    intro n _ x hx
    simpa using hx
  | succ m ih =>
    intro n hn x hx
    push_cast at hn
    have e : List.replicate (3 * (m + 1)) 7 ++ l = 7 :: 7 :: 7 :: (List.replicate (3 * m) 7 ++ l) :=
      rfl
    rw [e, coloca_frota_amostras, coloca_frota_passo_sete t k n h0 h5, if_neg (by omega)]
    simp only
    apply List.mem_cons_of_mem
    apply ih (n + 1) (by omega)
    have e2 : n + 1 + (m : Int) = n + ((m + 1 : Nat) : Int) := by
      push_cast
      ring
    rw [e2]
    exact hx

/-- C15 fails as stated: on 5000 rejected samples followed by `sorteios_bons`
the first ship is sampled once more with 5000 samples of it already rejected,
a 5001st sample, and that sample places it: the run returns the fleet of
`sorteios_bons` with no reset. -/
theorem amostras_contra :
    ((0 : Int), (5000 : Int)) ∈
        coloca_frota_amostras (List.replicate (3 * 5000) 7 ++ sorteios_bons)
          (init_tab tab_exemplo VAZIO) 0 0 ∧
      ¬ ((5000 : Int) + 1 ≤ 5000) ∧
      coloca_frota_aleatoria (init_tab tab_exemplo VAZIO)
        (List.replicate (3 * 5000) 7 ++ sorteios_bons) = some (tab_frota, []) := by
  refine ⟨?_, by decide, ?_⟩
  · apply coloca_frota_amostras_rejeitados _ 0 _ (le_refl 0) (by decide) 5000 0 (by decide)
    decide
  · unfold coloca_frota_aleatoria
    rw [frota_tam_eq, if_pos (by decide),
      coloca_frota_enquanto_rejeitados _ 0 _ (le_refl 0) (by decide) 5000 0 (by decide)]
    exact resultado_eq _ _ _ (by decide) (by decide)

/-- C15, amended: at every sample of a run of `coloca_frota_aleatoria` the ship
index is one of the fleet and the number of samples of that ship rejected so
far is between 0 and 5000, so the sample is at most the 5001st; when the
sample is rejected, the placer clears the board and starts the fleet again
exactly when it was the 5001st, and otherwise samples the same ship again on
the same board with the counter one higher. -/
theorem amostras_limite (sorteios : List Nat) (t : Tab) (k n : Int)
    (h : (k, n) ∈ coloca_frota_amostras sorteios t 0 0) :
    (0 ≤ k ∧ k < 5) ∧ (0 ≤ n ∧ n + 1 ≤ 5001) ∧
      ∀ (t1 : Tab) (len : Int) (d1 d2 d3 : Nat), frota_len k = some len →
        cabe_livre t1 ((d2 : Int) % 8) ((d3 : Int) % 8) len ((d1 : Int) % 2) = some 0 →
        coloca_frota_passo t1 k n d1 d2 d3 =
          if n + 1 = 5001 then some (init_tab t1 VAZIO, some (0, 0))
          else some (t1, some (k, n + 1)) := by
  obtain ⟨hk, hn⟩ := coloca_frota_amostras_validas sorteios.length sorteios t 0 0 (le_refl _)
    (le_refl 0) (by decide) (le_refl 0) (by decide) (k, n) h
  simp only at hk hn
  refine ⟨hk, ⟨hn.1, by omega⟩, ?_⟩
  intro t1 len d1 d2 d3 hlen hrej
  rw [coloca_frota_passo_rejeitado t1 k n len d1 d2 d3 hlen hrej]
  by_cases hs : n + 1 = 5001
  · rw [if_pos hs, if_pos (by omega)]
  · rw [if_neg hs, if_neg (by omega)]

theorem amostras_limite_witness :
    ((0 : Int), (1 : Int)) ∈
        coloca_frota_amostras sorteios_exemplo (init_tab tab_exemplo VAZIO) 0 0 ∧
      ((0 : Int) ≤ 0 ∧ (0 : Int) < 5) ∧ ((0 : Int) ≤ 1 ∧ (1 : Int) + 1 ≤ 5001) ∧
      ∀ (t1 : Tab) (len : Int) (d1 d2 d3 : Nat), frota_len 0 = some len →
        cabe_livre t1 ((d2 : Int) % 8) ((d3 : Int) % 8) len ((d1 : Int) % 2) = some 0 →
        coloca_frota_passo t1 0 1 d1 d2 d3 =
          if (1 : Int) + 1 = 5001 then some (init_tab t1 VAZIO, some (0, 0))
          else some (t1, some (0, 1 + 1)) :=
  ⟨by decide, amostras_limite sorteios_exemplo (init_tab tab_exemplo VAZIO) 0 1 (by decide)⟩

/-! ## Termination of the placement -/

/-- On draws that are all 7 the run never returns. -/
theorem coloca_frota_enquanto_sete :
    ∀ (m n : Nat) (t : Tab) (k tentativas : Int), n ≤ m → 0 ≤ k → k < 5 →
      coloca_frota_enquanto (List.replicate n 7) t k tentativas = none := by
  intro m
  induction m with
  | zero =>
    intro n t k tentativas hn _ _
    have : n = 0 := by omega
    subst this
    simp [coloca_frota_enquanto]
  | succ m ih =>
    intro n t k tentativas hn h0 h5
    match n, hn with
    | 0, _ => simp [coloca_frota_enquanto]
    | 1, _ => simp [coloca_frota_enquanto]
    | 2, _ => simp [List.replicate, coloca_frota_enquanto]
    | n + 3, hn =>
      have e : List.replicate (n + 3) 7 = 7 :: 7 :: 7 :: List.replicate n 7 := rfl
      rw [e, coloca_frota_enquanto_passo, coloca_frota_passo_sete t k tentativas h0 h5]
      by_cases hs : tentativas + 1 > 5000
      · rw [if_pos hs]
        exact ih n _ 0 0 (by omega) (le_refl 0) (by decide)
      · rw [if_neg hs]
        exact ih n t k _ (by omega) h0 h5

/-- C13 fails as stated: on the sequence of draws that are all 7 (a horizontal
ship anchored at H8, which never fits) `coloca_frota_aleatoria` started on the
empty board does not return, however many draws it is given. -/
theorem coloca_frota_nao_termina :
    ¬ ∀ f : Nat → Nat, ∃ (n : Nat) (res : Tab × List Nat),
      coloca_frota_aleatoria (init_tab tab_exemplo VAZIO) ((List.range n).map f) = some res := by
  intro h
  obtain ⟨n, res, e⟩ := h (fun _ => 7)
  have hr : (List.range n).map (fun _ => 7) = List.replicate n 7 := by
    rw [List.map_const', List.length_range]
  rw [hr] at e
  unfold coloca_frota_aleatoria at e
  rw [frota_tam_eq, if_pos (by decide),
    coloca_frota_enquanto_sete n n _ 0 0 (le_refl _) (le_refl 0) (by decide)] at e
  exact absurd e (by simp)

/-- From any ship index of the fleet and counter in 0..5000, on any board,
some draws make the run return. -/
theorem coloca_frota_enquanto_fim (t : Tab) (k n : Int) (h0 : 0 ≤ k) (h5 : k < 5)
    (hn0 : 0 ≤ n) (hn : n ≤ 5000) :
    ∃ (extra : List Nat) (res : Tab × List Nat),
      coloca_frota_enquanto extra t k n = some res := by
  refine ⟨List.replicate (3 * (5000 - n).toNat) 7 ++ 7 :: 7 :: 7 :: sorteios_bons,
    (tab_frota, []), ?_⟩
  have e : n + ((5000 - n).toNat : Int) = 5000 := by
    rw [Int.toNat_of_nonneg (by omega)]
    ring
  rw [coloca_frota_enquanto_rejeitados t k _ h0 h5 _ n (by omega), e,
    coloca_frota_enquanto_passo, coloca_frota_passo_sete t k 5000 h0 h5, if_pos (by decide)]
  show coloca_frota_enquanto sorteios_bons (init_tab tab_exemplo VAZIO) 0 0 = some (tab_frota, [])
  exact resultado_eq _ _ _ (by decide) (by decide)

/-- One more pass in front of a run that can be made to return. -/
theorem coloca_frota_enquanto_apos_passo (t : Tab) (k n : Int) (d1 d2 d3 : Nat) (l : List Nat)
    (h0 : 0 ≤ k) (h5 : k < 5) (hn0 : 0 ≤ n) (hn : n ≤ 5000)
    (hl : ∀ (t1 : Tab) (k1 n1 : Int), 0 ≤ k1 → k1 < 5 → 0 ≤ n1 → n1 ≤ 5000 →
      ∃ (extra : List Nat) (res : Tab × List Nat),
        coloca_frota_enquanto (l ++ extra) t1 k1 n1 = some res) :
    ∃ (extra : List Nat) (res : Tab × List Nat),
      coloca_frota_enquanto (d1 :: d2 :: d3 :: (l ++ extra)) t k n = some res := by
  rcases coloca_frota_passo_valido t k n d1 d2 d3 h0 h5 hn0 hn with
    ⟨t1, hp⟩ | ⟨t1, k1, n1, hp, hk1, hn1⟩
  · refine ⟨[], (t1, l ++ []), ?_⟩
    rw [coloca_frota_enquanto_passo, hp]
  · obtain ⟨extra, res, e⟩ := hl t1 k1 n1 hk1.1 hk1.2 hn1.1 hn1.2
    refine ⟨extra, res, ?_⟩
    rw [coloca_frota_enquanto_passo, hp]
    exact e

theorem coloca_frota_enquanto_continua :
    ∀ (m : Nat) (sorteios : List Nat) (t : Tab) (k n : Int), sorteios.length ≤ m →
      0 ≤ k → k < 5 → 0 ≤ n → n ≤ 5000 →
      ∃ (extra : List Nat) (res : Tab × List Nat),
        coloca_frota_enquanto (sorteios ++ extra) t k n = some res := by
  intro m
  induction m with
  | zero =>
    intro sorteios t k n hm h0 h5 hn0 hn
    match sorteios, hm with
    | [], _ => exact coloca_frota_enquanto_fim t k n h0 h5 hn0 hn
  | succ m ih =>
    intro sorteios t k n hm h0 h5 hn0 hn
    have hfim : ∀ (t1 : Tab) (k1 n1 : Int), 0 ≤ k1 → k1 < 5 → 0 ≤ n1 → n1 ≤ 5000 →
        ∃ (extra : List Nat) (res : Tab × List Nat),
          coloca_frota_enquanto ([] ++ extra) t1 k1 n1 = some res := by
      intro t1 k1 n1 a1 a2 a3 a4
      exact coloca_frota_enquanto_fim t1 k1 n1 a1 a2 a3 a4
    match sorteios, hm with
    | [], _ => exact coloca_frota_enquanto_fim t k n h0 h5 hn0 hn
    | [d1], _ =>
      obtain ⟨extra, res, e⟩ :=
        coloca_frota_enquanto_apos_passo t k n d1 7 7 [] h0 h5 hn0 hn hfim
      exact ⟨7 :: 7 :: ([] ++ extra), res, e⟩
    | [d1, d2], _ =>
      obtain ⟨extra, res, e⟩ :=
        coloca_frota_enquanto_apos_passo t k n d1 d2 7 [] h0 h5 hn0 hn hfim
      exact ⟨7 :: ([] ++ extra), res, e⟩
    | d1 :: d2 :: d3 :: resto, hm =>
      have hm1 : resto.length ≤ m := by
        simp only [List.length_cons] at hm
        omega
      obtain ⟨extra, res, e⟩ :=
        coloca_frota_enquanto_apos_passo t k n d1 d2 d3 resto h0 h5 hn0 hn
          (fun t1 k1 n1 a1 a2 a3 a4 => ih resto t1 k1 n1 hm1 a1 a2 a3 a4)
      exact ⟨extra, res, e⟩

/-- C13, amended: `coloca_frota_aleatoria` started on a board whose cells are
all empty has no failure state: after any finite sequence of draws there is a
continuation of the draws on which it returns, and whenever it returns the
board holds the whole fleet, 14 ship cells. -/
theorem coloca_frota_pode_terminar (t : Tab) (sorteios : List Nat)
    (hv : ∀ i j : Fin N, t i j = VAZIO) :
    (∃ (extra : List Nat) (res : Tab × List Nat),
        coloca_frota_aleatoria t (sorteios ++ extra) = some res) ∧
      ∀ (extra : List Nat) (res : Tab × List Nat),
        coloca_frota_aleatoria t (sorteios ++ extra) = some res →
        navios_restantes res.1 = 14 := by
  constructor
  · obtain ⟨extra, res, e⟩ := coloca_frota_enquanto_continua sorteios.length sorteios t 0 0
      (le_refl _) (le_refl 0) (by decide) (le_refl 0) (by decide)
    refine ⟨extra, res, ?_⟩
    unfold coloca_frota_aleatoria
    rw [frota_tam_eq, if_pos (by decide)]
    exact e
  · intro extra res e
    exact (coloca_frota_contagem t res.1 (sorteios ++ extra) res.2 hv e).1

theorem coloca_frota_pode_terminar_witness :
    (∀ i j : Fin N, init_tab tab_exemplo VAZIO i j = VAZIO) ∧
      (∃ (extra : List Nat) (res : Tab × List Nat),
        coloca_frota_aleatoria (init_tab tab_exemplo VAZIO) ([7, 7, 7, 7] ++ extra) = some res) ∧
      ∀ (extra : List Nat) (res : Tab × List Nat),
        coloca_frota_aleatoria (init_tab tab_exemplo VAZIO) ([7, 7, 7, 7] ++ extra) = some res →
        navios_restantes res.1 = 14 :=
  ⟨by decide, coloca_frota_pode_terminar (init_tab tab_exemplo VAZIO) [7, 7, 7, 7] (by decide)⟩

/-! ## Termination of the opponent -/

/-- A pair of draws that names a hit or a miss is skipped. -/
theorem cpu_joga_rejeita (t : Tab) (d1 d2 : Nat) (resto : List Nat)
    (h : ler t ((d1 : Int) % 8) ((d2 : Int) % 8) = some ACERTO ∨
      ler t ((d1 : Int) % 8) ((d2 : Int) % 8) = some ERRO) :
    cpu_joga (d1 :: d2 :: resto) t = cpu_joga resto t := by
  obtain ⟨a, b, ha, hb⟩ := indices_of_dentro _ _ (dentro_sorteio d1 d2)
  rw [ler_of_indice t _ _ a b ha hb] at h
  simp only [Option.some.injEq] at h
  rw [cpu_joga]
  simp only [N, Nat.cast_ofNat, ler_of_indice t _ _ a b ha hb]
  rw [if_pos h]

/-- A pair of draws that names a cell that is neither a hit nor a miss ends
the loop. -/
theorem cpu_joga_aceita (t : Tab) (d1 d2 : Nat) (resto : List Nat)
    (h1 : ler t ((d1 : Int) % 8) ((d2 : Int) % 8) ≠ some ACERTO)
    (h2 : ler t ((d1 : Int) % 8) ((d2 : Int) % 8) ≠ some ERRO) :
    ∃ j, cpu_joga (d1 :: d2 :: resto) t = some j ∧ j.r = (d1 : Int) % 8 ∧
      j.c = (d2 : Int) % 8 ∧ j.resto = resto := by
  have hd := dentro_sorteio d1 d2
  obtain ⟨a, b, ha, hb⟩ := indices_of_dentro _ _ hd
  rw [ler_of_indice t _ _ a b ha hb] at h1 h2
  have hterm : ¬ (t a b = ACERTO ∨ t a b = ERRO) := by
    rintro (e | e)
    · exact h1 (by rw [e])
    · exact h2 (by rw [e])
  obtain ⟨res, t1, hdisp⟩ := disparar_retorna t _ _ hd
  rw [cpu_joga]
  simp only [N, Nat.cast_ofNat, ler_of_indice t _ _ a b ha hb]
  rw [if_neg hterm]
  simp only [hdisp]
  exact ⟨_, rfl, rfl, rfl, rfl⟩

/-- On draws that are all 0 `cpu_joga` never returns on a board with a hit at
A1. -/
theorem cpu_joga_zeros (t : Tab) (h : ler t (((0 : Nat) : Int) % 8) (((0 : Nat) : Int) % 8)
    = some ACERTO) :
    ∀ (m n : Nat), n ≤ m → cpu_joga (List.replicate n 0) t = none := by
  intro m
  induction m with
  | zero =>
    intro n hn
    have : n = 0 := by omega
    subst this
    simp [cpu_joga]
  | succ m ih =>
    intro n hn
    match n, hn with
    | 0, _ => simp [cpu_joga]
    | 1, _ => simp [cpu_joga]
    | n + 2, hn =>
      have e : List.replicate (n + 2) 0 = 0 :: 0 :: List.replicate n 0 := rfl
      rw [e, cpu_joga_rejeita t 0 0 _ (Or.inl h)]
      exact ih n (by omega)

/-- C14 fails as stated: `tab_jogo` has empty cells and ship cells, but on the
sequence of draws that are all 0, which name the hit cell A1 again and again,
`cpu_joga` does not return, however many draws it is given. -/
theorem cpu_joga_nao_termina :
    (∃ i j : Fin N, tab_jogo i j = VAZIO ∨ tab_jogo i j = NAVIO) ∧
      ¬ ∃ (n : Nat) (j : Jogada), cpu_joga ((List.range n).map fun _ => 0) tab_jogo = some j := by
  refine ⟨by decide, ?_⟩
  rintro ⟨n, j, e⟩
  have hr : (List.range n).map (fun _ => 0) = List.replicate n 0 := by
    rw [List.map_const', List.length_range]
  rw [hr, cpu_joga_zeros tab_jogo (by decide) n n (le_refl _)] at e
  exact absurd e (by simp)

theorem cpu_joga_continua (t : Tab) (i j : Fin N) (h1 : t i j ≠ ACERTO) (h2 : t i j ≠ ERRO) :
    ∀ (m : Nat) (sorteios : List Nat), sorteios.length ≤ m →
      ∃ (extra : List Nat) (jg : Jogada), cpu_joga (sorteios ++ extra) t = some jg := by
  have hler : ler t (((i.val : Nat) : Int) % 8) (((j.val : Nat) : Int) % 8) = some (t i j) := by
    have hi : i.val < 8 := i.isLt
    have hj : j.val < 8 := j.isLt
    rw [Int.emod_eq_of_lt (by omega) (by omega), Int.emod_eq_of_lt (by omega) (by omega)]
    exact ler_fin t i j
  have hfim : ∀ resto : List Nat, ∃ jg, cpu_joga (i.val :: j.val :: resto) t = some jg := by
    intro resto
    obtain ⟨jg, e, -⟩ := cpu_joga_aceita t i.val j.val resto
      (by rw [hler]; simpa using h1) (by rw [hler]; simpa using h2)
    exact ⟨jg, e⟩
  have passo : ∀ (d1 d2 : Nat) (l : List Nat),
      (∃ (extra : List Nat) (jg : Jogada), cpu_joga (l ++ extra) t = some jg) →
      ∃ (extra : List Nat) (jg : Jogada), cpu_joga (d1 :: d2 :: (l ++ extra)) t = some jg := by
    intro d1 d2 l hl
    by_cases hterm : ler t ((d1 : Int) % 8) ((d2 : Int) % 8) = some ACERTO ∨
        ler t ((d1 : Int) % 8) ((d2 : Int) % 8) = some ERRO
    · obtain ⟨extra, jg, e⟩ := hl
      exact ⟨extra, jg, by rw [cpu_joga_rejeita t d1 d2 _ hterm]; exact e⟩
    · simp only [not_or] at hterm
      obtain ⟨jg, e, -⟩ := cpu_joga_aceita t d1 d2 (l ++ []) hterm.1 hterm.2
      exact ⟨[], jg, e⟩
  intro m
  induction m with
  | zero =>
    intro sorteios hm
    match sorteios, hm with
    | [], _ =>
      obtain ⟨jg, e⟩ := hfim []
      exact ⟨[i.val, j.val], jg, e⟩
  | succ m ih =>
    intro sorteios hm
    match sorteios, hm with
    | [], _ =>
      obtain ⟨jg, e⟩ := hfim []
      exact ⟨[i.val, j.val], jg, e⟩
    | [d1], _ =>
      obtain ⟨extra, jg, e⟩ := passo d1 0 [] ⟨[i.val, j.val], (hfim []).choose,
        (hfim []).choose_spec⟩
      exact ⟨0 :: ([] ++ extra), jg, e⟩
    | d1 :: d2 :: resto, hm =>
      have hm1 : resto.length ≤ m := by
        simp only [List.length_cons] at hm
        omega
      obtain ⟨extra, jg, e⟩ := passo d1 d2 resto (ih resto hm1)
      exact ⟨extra, jg, e⟩

/-- C14, amended: on a board with at least one cell in empty or ship state,
after any finite sequence of draws there is a continuation of the draws on
which `cpu_joga` returns; the loop skips a pair of draws that names a hit or
a miss and returns at the first pair that names any other cell, having fired
at that cell. -/
theorem cpu_joga_pode_terminar (t : Tab) (sorteios : List Nat)
    (h : ∃ i j : Fin N, t i j = VAZIO ∨ t i j = NAVIO) :
    (∃ (extra : List Nat) (jg : Jogada), cpu_joga (sorteios ++ extra) t = some jg) ∧
      (∀ (d1 d2 : Nat) (resto : List Nat),
        (ler t ((d1 : Int) % 8) ((d2 : Int) % 8) = some ACERTO ∨
          ler t ((d1 : Int) % 8) ((d2 : Int) % 8) = some ERRO) →
        cpu_joga (d1 :: d2 :: resto) t = cpu_joga resto t) ∧
      ∀ (d1 d2 : Nat) (resto : List Nat),
        ler t ((d1 : Int) % 8) ((d2 : Int) % 8) ≠ some ACERTO →
        ler t ((d1 : Int) % 8) ((d2 : Int) % 8) ≠ some ERRO →
        ∃ jg, cpu_joga (d1 :: d2 :: resto) t = some jg ∧ jg.r = (d1 : Int) % 8 ∧
          jg.c = (d2 : Int) % 8 ∧ jg.resto = resto := by
  obtain ⟨i, j, hij⟩ := h
  have h1 : t i j ≠ ACERTO := by
    rcases hij with e | e <;> rw [e] <;> decide
  have h2 : t i j ≠ ERRO := by
    rcases hij with e | e <;> rw [e] <;> decide
  exact ⟨cpu_joga_continua t i j h1 h2 sorteios.length sorteios (le_refl _),
    cpu_joga_rejeita t, cpu_joga_aceita t⟩

theorem cpu_joga_pode_terminar_witness :
    (∃ i j : Fin N, tab_jogo i j = VAZIO ∨ tab_jogo i j = NAVIO) ∧
      (∃ (extra : List Nat) (jg : Jogada), cpu_joga ([0, 0, 0] ++ extra) tab_jogo = some jg) ∧
      (∀ (d1 d2 : Nat) (resto : List Nat),
        (ler tab_jogo ((d1 : Int) % 8) ((d2 : Int) % 8) = some ACERTO ∨
          ler tab_jogo ((d1 : Int) % 8) ((d2 : Int) % 8) = some ERRO) →
        cpu_joga (d1 :: d2 :: resto) tab_jogo = cpu_joga resto tab_jogo) ∧
      ∀ (d1 d2 : Nat) (resto : List Nat),
        ler tab_jogo ((d1 : Int) % 8) ((d2 : Int) % 8) ≠ some ACERTO →
        ler tab_jogo ((d1 : Int) % 8) ((d2 : Int) % 8) ≠ some ERRO →
        ∃ jg, cpu_joga (d1 :: d2 :: resto) tab_jogo = some jg ∧ jg.r = (d1 : Int) % 8 ∧
          jg.c = (d2 : Int) % 8 ∧ jg.resto = resto :=
  ⟨by decide, cpu_joga_pode_terminar tab_jogo [0, 0, 0] (by decide)⟩

/-! ## The coordinate reader -/

theorem parse_coord_maiuscula (i k : Nat) (out_r out_c : Int) (hi : i < 8) (hk1 : 1 ≤ k)
    (hk8 : k ≤ 8) :
    parse_coord (Char.ofNat (65 + i) :: Nat.toDigits 10 k) out_r out_c
      = (1, (i : Int), (k : Int) - 1) := by
  interval_cases i <;> interval_cases k <;> rfl

theorem parse_coord_minuscula (i k : Nat) (out_r out_c : Int) (hi : i < 8) (hk1 : 1 ≤ k)
    (hk8 : k ≤ 8) :
    parse_coord (Char.ofNat (97 + i) :: Nat.toDigits 10 k) out_r out_c
      = (1, (i : Int), (k : Int) - 1) := by
  interval_cases i <;> interval_cases k <;> rfl

theorem parse_coord_numeros (a b : Nat) (out_r out_c : Int) (ha1 : 1 ≤ a) (ha8 : a ≤ 8)
    (hb1 : 1 ≤ b) (hb8 : b ≤ 8) :
    parse_coord (Nat.toDigits 10 a ++ ' ' :: Nat.toDigits 10 b) out_r out_c
      = (1, (a : Int) - 1, (b : Int) - 1) := by
  interval_cases a <;> interval_cases b <;> rfl

/-- C12: for the row letter of index `i` (0 for A up to 7 for H), upper case
(code `65 + i`) or lower case (code `97 + i`), and a column number `k` from 1 to
8, `parse_coord` on the letter followed by the decimal digits of `k` returns 1
and writes row `i` and column `k - 1`; for numbers `a` and `b` from 1 to 8,
`parse_coord` on the digits of `a`, a space and the digits of `b` returns 1
and writes row `a - 1` and column `b - 1`. -/
theorem parse_coord_aceita (i k a b : Nat) (out_r out_c : Int) (hi : i < 8)
    (hk : 1 ≤ k ∧ k ≤ 8) (ha : 1 ≤ a ∧ a ≤ 8) (hb : 1 ≤ b ∧ b ≤ 8) :
    parse_coord (Char.ofNat (65 + i) :: Nat.toDigits 10 k) out_r out_c
        = (1, (i : Int), (k : Int) - 1) ∧
      parse_coord (Char.ofNat (97 + i) :: Nat.toDigits 10 k) out_r out_c
        = (1, (i : Int), (k : Int) - 1) ∧
      parse_coord (Nat.toDigits 10 a ++ ' ' :: Nat.toDigits 10 b) out_r out_c
        = (1, (a : Int) - 1, (b : Int) - 1) :=
  ⟨parse_coord_maiuscula i k out_r out_c hi hk.1 hk.2,
    parse_coord_minuscula i k out_r out_c hi hk.1 hk.2,
    parse_coord_numeros a b out_r out_c ha.1 ha.2 hb.1 hb.2⟩

theorem parse_coord_aceita_witness :
    2 < 8 ∧ (1 ≤ 5 ∧ 5 ≤ 8) ∧ (1 ≤ 3 ∧ 3 ≤ 8) ∧ (1 ≤ 2 ∧ 2 ≤ 8) ∧
      parse_coord (Char.ofNat (65 + 2) :: Nat.toDigits 10 5) (-1) (-1)
        = (1, ((2 : Nat) : Int), ((5 : Nat) : Int) - 1) ∧
      parse_coord (Char.ofNat (97 + 2) :: Nat.toDigits 10 5) (-1) (-1)
        = (1, ((2 : Nat) : Int), ((5 : Nat) : Int) - 1) ∧
      parse_coord (Nat.toDigits 10 3 ++ ' ' :: Nat.toDigits 10 2) (-1) (-1)
        = (1, ((3 : Nat) : Int) - 1, ((2 : Nat) : Int) - 1) :=
  ⟨by decide, by decide, by decide, by decide,
    parse_coord_aceita 2 5 3 2 (-1) (-1) (by decide) (by decide) (by decide) (by decide)⟩

theorem dentro_zero_ou_um (r c : Int) : dentro r c = 0 ∨ dentro r c = 1 := by
  unfold dentro
  split
  · exact Or.inr rfl
  · exact Or.inl rfl

/-- The two ways `parse_coord` ends: it returns 0 and writes nothing, or it
returns 1 after the test `dentro` and writes the row and the column. -/
theorem parse_coord_casos (s : List Char) (out_r out_c : Int) :
    parse_coord s out_r out_c = (0, out_r, out_c) ∨
      ∃ r c : Int, dentro r c = 1 ∧ parse_coord s out_r out_c = (1, r, c) := by
  unfold parse_coord
  simp only
  split_ifs <;> first
    | exact Or.inl rfl
    | (rename_i h; exact Or.inr ⟨_, _, (dentro_zero_ou_um _ _).resolve_left h, rfl⟩)

/-- C20: on every text `parse_coord` returns 1 or 0; when it returns 1 the row
and the column it wrote satisfy `dentro`, so that `disparar` at them returns
on every board; when it returns 0 both outputs hold the values they held
before the call. -/
theorem parse_coord_seguro (s : List Char) (out_r out_c : Int) :
    ((parse_coord s out_r out_c).1 = 1 ∨ (parse_coord s out_r out_c).1 = 0) ∧
      ((parse_coord s out_r out_c).1 = 1 →
        dentro (parse_coord s out_r out_c).2.1 (parse_coord s out_r out_c).2.2 = 1 ∧
        ∀ t : Tab, ∃ res t1,
          disparar t (parse_coord s out_r out_c).2.1 (parse_coord s out_r out_c).2.2
            = some (res, t1)) ∧
      ((parse_coord s out_r out_c).1 = 0 →
        (parse_coord s out_r out_c).2.1 = out_r ∧ (parse_coord s out_r out_c).2.2 = out_c) := by
  rcases parse_coord_casos s out_r out_c with e | ⟨r, c, hd, e⟩
  · rw [e]
    exact ⟨Or.inr rfl, fun h => absurd h (show ¬ ((0 : Int) = 1) by decide),
      fun _ => ⟨rfl, rfl⟩⟩
  · rw [e]
    exact ⟨Or.inl rfl, fun _ => ⟨hd, fun t => disparar_retorna t r c hd⟩,
      fun h => absurd h (show ¬ ((1 : Int) = 0) by decide)⟩

/-! ## Cell transitions -/

/-- A pass whose sample is accepted: the ship is written and the next ship, if
there is one, comes with the counter at zero. -/
theorem coloca_frota_passo_aceito (t t1 : Tab) (k n len : Int) (d1 d2 d3 : Nat)
    (hk : frota_len k = some len)
    (hcabe : cabe_livre t ((d2 : Int) % 8) ((d3 : Int) % 8) len ((d1 : Int) % 2) = some 1)
    (hnavio : coloca_navio t ((d2 : Int) % 8) ((d3 : Int) % 8) len ((d1 : Int) % 2) = some t1) :
    coloca_frota_passo t k n d1 d2 d3 =
      if k + 1 < 5 then some (t1, some (k + 1, 0)) else some (t1, none) := by
  unfold coloca_frota_passo
  simp only [hk, N, Nat.cast_ofNat, hcabe, hnavio, ne_eq, one_ne_zero, not_false_eq_true,
    if_true, frota_tam_eq]

/-- A pass of the placement loop on a board of empty and ship cells leaves such
a board; either every cell is unchanged or went from empty to ship, or the
counter went past 5000 and every cell is empty. -/
theorem coloca_frota_passo_transicao (t t1 : Tab) (k n : Int) (d1 d2 d3 : Nat)
    (s : Option (Int × Int)) (hv : ∀ i j : Fin N, t i j = VAZIO ∨ t i j = NAVIO)
    (h : coloca_frota_passo t k n d1 d2 d3 = some (t1, s)) :
    (∀ i j : Fin N, t1 i j = VAZIO ∨ t1 i j = NAVIO) ∧
      ((∀ i j : Fin N, t1 i j = t i j ∨ (t i j = VAZIO ∧ t1 i j = NAVIO)) ∨
        (n + 1 > 5000 ∧ ∀ i j : Fin N, t1 i j = VAZIO)) := by
  cases hlen : frota_len k with
  | none => simp [coloca_frota_passo, hlen] at h
  | some len =>
    obtain ⟨hl2, hl4⟩ := frota_len_lim k len hlen
    have hd := dentro_sorteio d2 d3
    obtain ⟨c1, c2⟩ := cabe_livre_spec t _ _ len ((d1 : Int) % 2) hd (by omega)
      (soma_sorteio d1 d2 d3 len hl4)
    by_cases hl : corrida_livre t ((d2 : Int) % 8) ((d3 : Int) % 8) len ((d1 : Int) % 2)
    · obtain ⟨t2, e1, -, e3⟩ := coloca_navio_spec t _ _ len _ (by omega) hl
      rw [coloca_frota_passo_aceito t t2 k n len d1 d2 d3 hlen (c1 hl) e1] at h
      have ht : t2 = t1 := by
        split at h <;> simp only [Option.some.injEq, Prod.mk.injEq] at h <;> exact h.1
      subst ht
      have hcel : ∀ i j : Fin N, t2 i j = t i j ∨ (t i j = VAZIO ∧ t2 i j = NAVIO) := by
        intro i j
        obtain ⟨f1, f2⟩ := e3 i.val j.val
        rw [ler_fin, ler_fin] at f2
        rw [ler_fin] at f1
        by_cases hm : ((i.val : Int), (j.val : Int)) ∈
            corrida ((d2 : Int) % 8) ((d3 : Int) % 8) len ((d1 : Int) % 2)
        · have g1 := f1 hm
          have g2 := (hl _ hm).2
          rw [ler_fin] at g2
          simp only [Option.some.injEq] at g1 g2
          exact Or.inr ⟨g2, g1⟩
        · have g := f2 hm
          simp only [Option.some.injEq] at g
          exact Or.inl g
      refine ⟨fun i j => ?_, Or.inl hcel⟩
      rcases hcel i j with e | e
      · rw [e]
        exact hv i j
      · exact Or.inr e.2
    · rw [coloca_frota_passo_rejeitado t k n len d1 d2 d3 hlen (c2 hl)] at h
      by_cases hs : n + 1 > 5000
      · rw [if_pos hs] at h
        simp only [Option.some.injEq, Prod.mk.injEq] at h
        rw [← h.1]
        exact ⟨fun _ _ => Or.inl rfl, Or.inr ⟨hs, fun _ _ => rfl⟩⟩
      · rw [if_neg hs] at h
        simp only [Option.some.injEq, Prod.mk.injEq] at h
        rw [← h.1]
        exact ⟨hv, Or.inl (fun _ _ => Or.inl rfl)⟩

/-- C17 fails as stated: in the run of `coloca_frota_aleatoria` from the empty
board on the draws 1, 0, 0 followed by draws that are all 7, the first pass
writes the first ship on A1..A4, the next 5000 passes reject the second ship
and leave the board as it is, and the pass after them clears the board: the
cell A1 goes from ship back to empty. -/
theorem reinicio_apaga_navio :
    coloca_frota_passo (init_tab tab_exemplo VAZIO) 0 0 1 0 0 = some (tab_um_navio, some (1, 0)) ∧
      (∀ n : Int, 0 ≤ n → n < 5000 →
        coloca_frota_passo tab_um_navio 1 n 7 7 7 = some (tab_um_navio, some (1, n + 1))) ∧
      coloca_frota_passo tab_um_navio 1 5000 7 7 7
        = some (init_tab tab_um_navio VAZIO, some (0, 0)) ∧
      tab_um_navio 0 0 = NAVIO ∧ init_tab tab_um_navio VAZIO 0 0 = VAZIO ∧
      ∀ l : List Nat,
        coloca_frota_aleatoria (init_tab tab_exemplo VAZIO)
            (1 :: 0 :: 0 :: (List.replicate (3 * 5000) 7 ++ 7 :: 7 :: 7 :: l))
          = coloca_frota_enquanto l (init_tab tab_um_navio VAZIO) 0 0 := by
  have p1 : coloca_frota_passo (init_tab tab_exemplo VAZIO) 0 0 1 0 0
      = some (tab_um_navio, some (1, 0)) := rfl
  have p3 : coloca_frota_passo tab_um_navio 1 5000 7 7 7
      = some (init_tab tab_um_navio VAZIO, some (0, 0)) := by
    rw [coloca_frota_passo_sete tab_um_navio 1 5000 (by decide) (by decide), if_pos (by decide)]
  refine ⟨p1, ?_, p3, by decide, by decide, ?_⟩
  · intro n h0 h1
    rw [coloca_frota_passo_sete tab_um_navio 1 n (by decide) (by decide), if_neg (by omega)]
  · intro l
    unfold coloca_frota_aleatoria
    rw [frota_tam_eq, if_pos (by decide), coloca_frota_enquanto_passo, p1]
    simp only
    rw [coloca_frota_enquanto_rejeitados tab_um_navio 1 _ (by decide) (by decide) 5000 0
      (by decide)]
    have e : (0 : Int) + ((5000 : Nat) : Int) = 5000 := by decide
    rw [e, coloca_frota_enquanto_passo, p3]

/-- C17, amended: a board reached from an empty board by
`coloca_frota_aleatoria` followed by any list of `disparar` (in-bounds) and
`cpu_joga` calls holds only empty, ship, hit and miss cells, so never the
display value `~`; the placement call turned empty cells into ship cells or
left them empty; each later call leaves every cell unchanged or takes it from
empty to miss or from ship to hit; and inside the placement call each pass of
its loop, on a board of empty and ship cells, leaves such a board, with every
cell unchanged or taken from empty to ship, or, when the counter goes past
5000, with every cell empty again. -/
theorem tabuleiro_alcancado (t0 t1 t2 : Tab) (sorteios resto : List Nat) (acoes : List Acao)
    (hv : ∀ i j : Fin N, t0 i j = VAZIO)
    (hc : coloca_frota_aleatoria t0 sorteios = some (t1, resto))
    (hj : joga t1 acoes = some t2) :
    Valido t2 ∧ (∀ i j : Fin N, t2 i j ≠ AGUA) ∧
      (∀ i j : Fin N, t0 i j = VAZIO ∧ (t1 i j = VAZIO ∨ t1 i j = NAVIO)) ∧
      (∀ (a : Acao) (t3 : Tab), joga t2 [a] = some t3 →
        ∀ i j : Fin N, t3 i j = t2 i j ∨ (t2 i j = VAZIO ∧ t3 i j = ERRO) ∨
          (t2 i j = NAVIO ∧ t3 i j = ACERTO)) ∧
      ∀ (t t3 : Tab) (k n : Int) (d1 d2 d3 : Nat) (s : Option (Int × Int)),
        (∀ i j : Fin N, t i j = VAZIO ∨ t i j = NAVIO) →
        coloca_frota_passo t k n d1 d2 d3 = some (t3, s) →
        (∀ i j : Fin N, t3 i j = VAZIO ∨ t3 i j = NAVIO) ∧
          ((∀ i j : Fin N, t3 i j = t i j ∨ (t i j = VAZIO ∧ t3 i j = NAVIO)) ∨
            (n + 1 > 5000 ∧ ∀ i j : Fin N, t3 i j = VAZIO)) := by
  obtain ⟨-, k2⟩ := coloca_frota_contagem t0 t1 sorteios resto hv hc
  have h1 : Valido t1 := by
    intro i j
    rcases k2 i j with e | e
    · exact Or.inr (Or.inl e)
    · exact Or.inl e
  have h2 : Valido t2 :=
    joga_inv Valido (fun t t3 r c res hP e => (disparar_transicao t t3 r c res hP e).1)
      acoes t1 t2 h1 hj
  refine ⟨h2, valido_sem_agua t2 h2, fun i j => ⟨hv i j, (k2 i j).symm⟩, ?_,
    fun t t3 k n d1 d2 d3 s => coloca_frota_passo_transicao t t3 k n d1 d2 d3 s⟩
  intro a t3 h3
  obtain ⟨r, c, res, e⟩ := joga_um t2 t3 a h3
  exact (disparar_transicao t2 t3 r c res h2 e).2

theorem tabuleiro_alcancado_witness :
    (∀ i j : Fin N, init_tab tab_exemplo VAZIO i j = VAZIO) ∧
      coloca_frota_aleatoria (init_tab tab_exemplo VAZIO) sorteios_exemplo = some (tab_frota, [9]) ∧
      joga tab_frota acoes_exemplo = some tab_apos_acoes ∧
      Valido tab_apos_acoes ∧ (∀ i j : Fin N, tab_apos_acoes i j ≠ AGUA) ∧
      (∀ i j : Fin N, init_tab tab_exemplo VAZIO i j = VAZIO ∧
        (tab_frota i j = VAZIO ∨ tab_frota i j = NAVIO)) ∧
      (∀ (a : Acao) (t3 : Tab), joga tab_apos_acoes [a] = some t3 →
        ∀ i j : Fin N, t3 i j = tab_apos_acoes i j ∨
          (tab_apos_acoes i j = VAZIO ∧ t3 i j = ERRO) ∨
          (tab_apos_acoes i j = NAVIO ∧ t3 i j = ACERTO)) ∧
      ∀ (t t3 : Tab) (k n : Int) (d1 d2 d3 : Nat) (s : Option (Int × Int)),
        (∀ i j : Fin N, t i j = VAZIO ∨ t i j = NAVIO) →
        coloca_frota_passo t k n d1 d2 d3 = some (t3, s) →
        (∀ i j : Fin N, t3 i j = VAZIO ∨ t3 i j = NAVIO) ∧
          ((∀ i j : Fin N, t3 i j = t i j ∨ (t i j = VAZIO ∧ t3 i j = NAVIO)) ∨
            (n + 1 > 5000 ∧ ∀ i j : Fin N, t3 i j = VAZIO)) :=
  ⟨by decide, resultado_eq _ _ _ (by decide) (by decide), rfl,
    tabuleiro_alcancado (init_tab tab_exemplo VAZIO) tab_frota tab_apos_acoes sorteios_exemplo [9]
      acoes_exemplo (by decide) (resultado_eq _ _ _ (by decide) (by decide)) rfl⟩

end BatalhaNaval
